import Mathlib

/-!
Verification of the hyperliquid-python-sdk core against its specification.

The development shallowly embeds the two specified components:
the action-hashing/signing helpers of hyperliquid/utils/signing.py and the
subscription-multiplexing websocket manager of hyperliquid/websocket_manager.py.
Bytes are natural numbers below 256, byte strings are lists of naturals,
Python ints are Nat/Int, Python floats are modelled as exact rationals, and
Python dicts are insertion-ordered association lists.  External primitives the
claims do not constrain internally (msgpack.packb, keccak) are parameters.
-/

namespace HL

/-! ## Byte strings and big-endian integer encoding -/

/-- Big-endian base-256 digits of n, exactly w bytes (the low w bytes of n). -/
def beDigits : Nat → Nat → List Nat
  | 0, _ => []
  | w + 1, n => beDigits w (n / 256) ++ [n % 256]

/-- Python int.to_bytes(w, "big"): raises OverflowError when n does not fit in
w bytes, modelled as Option. -/
def toBytesBig (w n : Nat) : Option (List Nat) :=
  if n < 256 ^ w then some (beDigits w n) else none

theorem beDigits_length (w n : Nat) : (beDigits w n).length = w := by
  induction w generalizing n with
  | zero => rfl
  | succ w ih => simp [beDigits, ih]

/-! ## Hex decoding (bytes.fromhex) -/

/-- Value of one hex digit character. -/
def hexDigitVal (c : Char) : Option Nat :=
  if ('0' ≤ c ∧ c ≤ '9') then some (c.toNat - '0'.toNat)
  else if ('a' ≤ c ∧ c ≤ 'f') then some (c.toNat - 'a'.toNat + 10)
  else if ('A' ≤ c ∧ c ≤ 'F') then some (c.toNat - 'A'.toNat + 10)
  else none

/-- bytes.fromhex on a whitespace-free string: consume hex digits in pairs.
(The addresses fed to this function never contain the ASCII spaces that
Python's bytes.fromhex would additionally skip.) -/
def hexPairsToBytes : List Char → Option (List Nat)
  | [] => some []
  | [_] => none
  | c1 :: c2 :: rest => do
    let h ← hexDigitVal c1
    let l ← hexDigitVal c2
    let bs ← hexPairsToBytes rest
    pure ((16 * h + l) :: bs)

/-- signing.py address_to_bytes: strip a leading "0x" and hex-decode. -/
def address_to_bytes (address : String) : Option (List Nat) :=
  let s := if address.startsWith "0x" then address.drop 2 else address
  hexPairsToBytes s.toList

/-! ## action_hash (signing.py lines 166-177)

msgpack.packb and keccak are abstracted as parameters: the claims constrain
only how their inputs are assembled, not their internals. -/

/-- The byte string signing.py action_hash assembles and feeds to keccak,
built by the source's sequence of appends: msgpack bytes, then the 8-byte
big-endian nonce, then the vault marker/address, then the optional expiry
marker and 8-byte big-endian expiry. -/
def action_hash_data {α : Type} (packb : α → List Nat) (action : α)
    (vault_address : Option String) (nonce : Nat) (expires_after : Option Nat) :
    Option (List Nat) := do
  let data := packb action
  let nb ← toBytesBig 8 nonce
  let data := data ++ nb
  let data ← match vault_address with
    | none => pure (data ++ [0x00])
    | some a => do
      let ab ← address_to_bytes a
      pure (data ++ [0x01] ++ ab)
  match expires_after with
  | none => pure data
  | some t => do
    let tb ← toBytesBig 8 t
    pure (data ++ [0x00] ++ tb)

/-- signing.py action_hash: keccak of the assembled byte string. -/
def action_hash {α : Type} (packb : α → List Nat) (keccak : List Nat → List Nat)
    (action : α) (vault_address : Option String) (nonce : Nat)
    (expires_after : Option Nat) : Option (List Nat) :=
  (action_hash_data packb action vault_address nonce expires_after).map keccak

/-! ## Float-to-fixed-point conversion (signing.py lines 467-480)

Python floats are modelled as exact rationals; Python's round() is
round-half-to-even. -/

/-- Python round() on a rational: nearest integer, ties to even. -/
def pyRound (q : ℚ) : ℤ :=
  let f : ℤ := ⌊q⌋
  let r : ℚ := q - (f : ℚ)
  if r < 1 / 2 then f
  else if r > 1 / 2 then f + 1
  else if f % 2 = 0 then f else f + 1

/-- signing.py float_to_int: scale by 10^power, fail when rounding to the
nearest integer would move the scaled value by at least 1e-3. -/
def float_to_int (x : ℚ) (power : Nat) : Except String ℤ :=
  let with_decimals : ℚ := x * 10 ^ power
  if |((pyRound with_decimals : ℤ) : ℚ) - with_decimals| ≥ 1 / 1000 then
    Except.error "float_to_int causes rounding"
  else
    Except.ok (pyRound with_decimals)

/-- signing.py float_to_int_for_hashing: 8-decimal fixed point. -/
def float_to_int_for_hashing (x : ℚ) : Except String ℤ :=
  float_to_int x 8

/-- signing.py float_to_usd_int: 6-decimal fixed point. -/
def float_to_usd_int (x : ℚ) : Except String ℤ :=
  float_to_int x 6

/-- True exactly when the conversion raised. -/
def isError {ε α : Type} : Except ε α → Bool
  | Except.error _ => true
  | Except.ok _ => false

/-! ## Python str.lower -/

/-- Python str.lower().  The modelled strings (coin/user symbols, hex
addresses) are ASCII, where Python's lower() agrees with per-character ASCII
lower-casing.  Defined over the character list so it evaluates in the
kernel. -/
def pyLower (s : String) : String :=
  String.mk (s.toList.map Char.toLower)

/-! ## Python dicts as insertion-ordered association lists (for signing.py
sign_user_signed_action and add_multi_sig_fields) -/

/-- Scalar values appearing in user-signed action mappings. -/
inductive PyVal where
  | str (s : String)
  | int (n : ℤ)
  | bool (b : Bool)
deriving DecidableEq

/-- A Python dict with string keys, in insertion order. -/
abbrev ActionDict := List (String × PyVal)

/-- Python item assignment d[k] = v: overwrite in place when k is present
(keeping its position), append otherwise. -/
def dictSet : ActionDict → String → PyVal → ActionDict
  | [], k, v => [(k, v)]
  | (k0, v0) :: rest, k, v =>
    if k0 = k then (k0, v) :: rest else (k0, v0) :: dictSet rest k v

/-- Python d.get(k) / d[k] lookup. -/
def dictGet : ActionDict → String → Option PyVal
  | [], _ => none
  | (k0, v0) :: rest, k => if k0 = k then some v0 else dictGet rest k

/-- signing.py sign_user_signed_action writes two keys into its action
argument in place before building the typed-data payload; this is the
post-call content of the caller's mapping (the subsequent payload
construction and ECDSA signing never modify the mapping). -/
def sign_user_signed_action_effect (action : ActionDict) (is_mainnet : Bool) :
    ActionDict :=
  dictSet (dictSet action "signatureChainId" (PyVal.str "0x66eee"))
    "hyperliquidChain" (PyVal.str (if is_mainnet then "Mainnet" else "Testnet"))

/-- signing.py add_multi_sig_fields copies the mapping (action.copy()) before
writing. First component: the caller's mapping after the call (untouched);
second component: the returned enriched copy. -/
def add_multi_sig_fields (action : ActionDict)
    (payload_multi_sig_user outer_signer : String) : ActionDict × ActionDict :=
  (action,
    dictSet (dictSet action "payloadMultiSigUser"
        (PyVal.str (pyLower payload_multi_sig_user)))
      "outerSigner" (PyVal.str (pyLower outer_signer)))

theorem dictGet_dictSet_same (d : ActionDict) (k : String) (v : PyVal) :
    dictGet (dictSet d k v) k = some v := by
  induction d with
  | nil => simp [dictSet, dictGet]
  | cons hd tl ih =>
    obtain ⟨k0, v0⟩ := hd
    by_cases h : k0 = k <;> simp [dictSet, dictGet, h, ih]

theorem dictGet_dictSet_other (d : ActionDict) (k k2 : String) (v : PyVal)
    (h : k2 ≠ k) : dictGet (dictSet d k v) k2 = dictGet d k2 := by
  have h3 : ¬k = k2 := fun h2 => h h2.symm
  induction d with
  | nil => simp [dictSet, dictGet, h3]
  | cons hd tl ih =>
    obtain ⟨k0, v0⟩ := hd
    by_cases h0 : k0 = k
    · subst h0
      simp [dictSet, dictGet, h3]
    · simp [dictSet, dictGet, h0, ih]

/-! ## Subscription requests and canonical keys
(hyperliquid/utils/types.py Subscription union, websocket_manager.py
subscription_to_identifier / ws_msg_to_identifier) -/

/-- The Subscription union of types.py: thirteen constructible request kinds. -/
inductive Subscription where
  | allMids
  | bbo (coin : String)
  | l2Book (coin : String)
  | trades (coin : String)
  | userEvents (user : String)
  | userFills (user : String)
  | candle (coin interval : String)
  | orderUpdates (user : String)
  | userFundings (user : String)
  | userNonFundingLedgerUpdates (user : String)
  | webData2 (user : String)
  | activeAssetCtx (coin : String)
  | activeAssetData (user coin : String)
deriving DecidableEq

/-- websocket_manager.py subscription_to_identifier.  The if/elif chain covers
nine of the thirteen constructible kinds; bbo, webData2, activeAssetCtx and
activeAssetData fall off the end and the Python function returns None. -/
def subscription_to_identifier : Subscription → Option String
  | Subscription.allMids => some "allMids"
  | Subscription.l2Book coin => some ("l2Book:" ++ pyLower coin)
  | Subscription.trades coin => some ("trades:" ++ pyLower coin)
  | Subscription.userEvents _ => some "userEvents"
  | Subscription.userFills user => some ("userFills:" ++ pyLower user)
  | Subscription.candle coin interval =>
    some ("candle:" ++ pyLower coin ++ "," ++ interval)
  | Subscription.orderUpdates _ => some "orderUpdates"
  | Subscription.userFundings user => some ("userFundings:" ++ pyLower user)
  | Subscription.userNonFundingLedgerUpdates user =>
    some ("userNonFundingLedgerUpdates:" ++ pyLower user)
  | _ => none

/-- Inbound websocket messages, reduced to the fields ws_msg_to_identifier
inspects: the channel tag and the coin/user/interval routing parameters.
(The repository's added "post" response channel carries no subscription
routing and is outside the modelled fragment.) -/
inductive WsMsg where
  | pong
  | allMids
  | l2Book (coin : String)
  | trades (tradeCoins : List String)
  | user
  | userFills (user : String)
  | candle (s i : String)
  | orderUpdates
  | userFundings (user : String)
  | userNonFundingLedgerUpdates (user : String)
deriving DecidableEq

/-- websocket_manager.py ws_msg_to_identifier. -/
def ws_msg_to_identifier : WsMsg → Option String
  | WsMsg.pong => some "pong"
  | WsMsg.allMids => some "allMids"
  | WsMsg.l2Book coin => some ("l2Book:" ++ pyLower coin)
  | WsMsg.trades [] => none
  | WsMsg.trades (c :: _) => some ("trades:" ++ pyLower c)
  | WsMsg.user => some "userEvents"
  | WsMsg.userFills user => some ("userFills:" ++ pyLower user)
  | WsMsg.candle s i => some ("candle:" ++ pyLower s ++ "," ++ i)
  | WsMsg.orderUpdates => some "orderUpdates"
  | WsMsg.userFundings user => some ("userFundings:" ++ pyLower user)
  | WsMsg.userNonFundingLedgerUpdates user =>
    some ("userNonFundingLedgerUpdates:" ++ pyLower user)

/-! ## The spec's inverse resolver, absent from the code -/

/-- Split a character list at its first comma. -/
def splitAtComma : List Char → Option (List Char × List Char)
  | [] => none
  | c :: rest =>
    if c = ',' then some ([], rest)
    else (splitAtComma rest).map (fun p => (c :: p.1, p.2))

/-- Strip an expected prefix from a character list. -/
def stripPrefixChars : List Char → List Char → Option (List Char)
  | [], rest => some rest
  | _ :: _, [] => none
  | p :: ps, c :: cs => if c = p then stripPrefixChars ps cs else none

/-- Modelled from the spec: the to_request direction of the Subscription
Identity Resolver contract (spec section 4.4) is not implemented anywhere in
the repository; this parser of canonical keys follows the spec's description
(fixed topic prefixes, the comma delimiter for candle keys, lower-cased
symbols).  The singleton keys "userEvents"/"orderUpdates" do not record the
user, so the parser fills in an empty user. -/
def to_request_chars (l : List Char) : Option Subscription :=
  if l = "allMids".toList then some Subscription.allMids
  else if l = "userEvents".toList then some (Subscription.userEvents "")
  else if l = "orderUpdates".toList then some (Subscription.orderUpdates "")
  else
    match stripPrefixChars "l2Book:".toList l with
    | some rest => some (Subscription.l2Book (String.mk rest))
    | none =>
    match stripPrefixChars "trades:".toList l with
    | some rest => some (Subscription.trades (String.mk rest))
    | none =>
    match stripPrefixChars "userFills:".toList l with
    | some rest => some (Subscription.userFills (String.mk rest))
    | none =>
    match stripPrefixChars "candle:".toList l with
    | some rest =>
      (splitAtComma rest).map
        (fun p => Subscription.candle (String.mk p.1) (String.mk p.2))
    | none =>
    match stripPrefixChars "userFundings:".toList l with
    | some rest => some (Subscription.userFundings (String.mk rest))
    | none =>
    match stripPrefixChars "userNonFundingLedgerUpdates:".toList l with
    | some rest =>
      some (Subscription.userNonFundingLedgerUpdates (String.mk rest))
    | none => none

/-- Modelled from the spec: to_request on canonical-key strings. -/
def to_request (key : String) : Option Subscription :=
  to_request_chars key.toList

/-- Case normalization the claim treats as equality: lower-case the
instrument/user symbols (candle intervals are not symbols and the code never
lower-cases them). -/
def lower_subscription : Subscription → Subscription
  | Subscription.allMids => Subscription.allMids
  | Subscription.bbo c => Subscription.bbo (pyLower c)
  | Subscription.l2Book c => Subscription.l2Book (pyLower c)
  | Subscription.trades c => Subscription.trades (pyLower c)
  | Subscription.userEvents u => Subscription.userEvents (pyLower u)
  | Subscription.userFills u => Subscription.userFills (pyLower u)
  | Subscription.candle c i => Subscription.candle (pyLower c) i
  | Subscription.orderUpdates u => Subscription.orderUpdates (pyLower u)
  | Subscription.userFundings u => Subscription.userFundings (pyLower u)
  | Subscription.userNonFundingLedgerUpdates u =>
    Subscription.userNonFundingLedgerUpdates (pyLower u)
  | Subscription.webData2 u => Subscription.webData2 (pyLower u)
  | Subscription.activeAssetCtx c => Subscription.activeAssetCtx (pyLower c)
  | Subscription.activeAssetData u c =>
    Subscription.activeAssetData (pyLower u) (pyLower c)

/-- What a canonical key actually determines: symbols lower-cased and the
user parameter of the singleton topics userEvents/orderUpdates erased
(their keys do not record it). -/
def key_normal_form : Subscription → Subscription
  | Subscription.userEvents _ => Subscription.userEvents ""
  | Subscription.orderUpdates _ => Subscription.orderUpdates ""
  | s => lower_subscription s

/-! ## The websocket manager state machine
(websocket_manager.py WebsocketManager) -/

/-- The (callback, subscription_id) NamedTuple; callbacks are opaque handles. -/
structure ActiveSubscription where
  callback : Nat
  subscription_id : Nat
deriving DecidableEq

/-- Wire-level messages sent through ws.send for subscription management. -/
inductive WireMsg where
  | subscribeMsg (s : Subscription)
  | unsubscribeMsg (s : Subscription)
deriving DecidableEq

/-- The mutable WebsocketManager state touched by subscribe/unsubscribe/
on_open/on_message, plus a trace of sent wire messages and a ghost list of
the ids handed out by subscribe.  The registry is the defaultdict
active_subscriptions, keyed by the identifier (None included, since the
Python code uses the identifier value as the key unconditionally). -/
structure WsState where
  subscription_id_counter : Nat
  ws_ready : Bool
  queued_subscriptions : List (Subscription × ActiveSubscription)
  active_subscriptions : Option String → List ActiveSubscription
  sent : List WireMsg
  allocated_ids : List Nat

/-- The state right after __init__. -/
def ws_init : WsState :=
  { subscription_id_counter := 0
    ws_ready := false
    queued_subscriptions := []
    active_subscriptions := fun _ => []
    sent := []
    allocated_ids := [] }

/-- Registry update at one key. -/
def regSet (st : WsState) (k : Option String) (v : List ActiveSubscription) :
    WsState :=
  { st with active_subscriptions :=
      fun k2 => if k2 = k then v else st.active_subscriptions k2 }

/-- Body of WebsocketManager.subscribe after the id has been fixed:
queue when the socket is not ready; otherwise enforce the singleton rule for
userEvents/orderUpdates (raise NotImplementedError, modelled as error),
register the pair and send one wire subscribe. -/
def subscribe_core (st : WsState) (sub : Subscription) (cb sid : Nat) :
    WsState × Except Unit Nat :=
  if st.ws_ready = false then
    ({ st with queued_subscriptions :=
        st.queued_subscriptions ++ [(sub, ⟨cb, sid⟩)] }, Except.ok sid)
  else if (subscription_to_identifier sub = some "userEvents" ∨
      subscription_to_identifier sub = some "orderUpdates") ∧
      (st.active_subscriptions (subscription_to_identifier sub)).length ≠ 0 then
    (st, Except.error ())
  else
    ({ regSet st (subscription_to_identifier sub)
        (st.active_subscriptions (subscription_to_identifier sub) ++
          [⟨cb, sid⟩]) with
      sent := st.sent ++ [WireMsg.subscribeMsg sub] }, Except.ok sid)

/-- WebsocketManager.subscribe: allocate a fresh id from the counter when the
caller passed none (the counter is bumped before anything else, so a later
raise still consumes the id), then run the body. -/
def subscribe_with_id (st : WsState) (sub : Subscription) (cb : Nat) :
    Option Nat → WsState × Except Unit Nat
  | none =>
    let sid := st.subscription_id_counter + 1
    subscribe_core
      { st with subscription_id_counter := sid,
                allocated_ids := st.allocated_ids ++ [sid] } sub cb sid
  | some sid => subscribe_core st sub cb sid

/-- WebsocketManager.unsubscribe: raises before the socket is ready; filters
the id out of the key's list, sends a wire unsubscribe exactly when the new
list is empty, stores the new list, and returns whether anything was removed. -/
def ws_unsubscribe (st : WsState) (sub : Subscription) (sid : Nat) :
    WsState × Except Unit Bool :=
  if st.ws_ready = false then (st, Except.error ())
  else
    (regSet
      (if ((st.active_subscriptions (subscription_to_identifier sub)).filter
          (fun a => a.subscription_id ≠ sid)).length = 0 then
        { st with sent := st.sent ++ [WireMsg.unsubscribeMsg sub] }
      else st)
      (subscription_to_identifier sub)
      ((st.active_subscriptions (subscription_to_identifier sub)).filter
        (fun a => a.subscription_id ≠ sid)),
    Except.ok (decide
      ((st.active_subscriptions (subscription_to_identifier sub)).length ≠
        ((st.active_subscriptions (subscription_to_identifier sub)).filter
          (fun a => a.subscription_id ≠ sid)).length)))

/-- WebsocketManager.on_message, reduced to its dispatch effect: a pong only
refreshes the liveness timestamp, an unroutable message is dropped, and
otherwise every callback registered under the message's identifier is invoked
in registration order.  The registry is never modified.  Second component:
the callbacks invoked, in order. -/
def ws_on_message (st : WsState) (m : WsMsg) : WsState × List Nat :=
  match ws_msg_to_identifier m with
  | none => (st, [])
  | some ident =>
    if ident = "pong" then (st, [])
    else (st, (st.active_subscriptions (some ident)).map (fun a => a.callback))

/-- The on_open drain loop: re-issue each queued subscription through
subscribe with its already-allocated id; a raise from subscribe propagates,
leaving the partial state. -/
def drain_queue : WsState → List (Subscription × ActiveSubscription) →
    WsState × Option Unit
  | st, [] => (st, none)
  | st, (sub, a) :: rest =>
    match subscribe_with_id st sub a.callback (some a.subscription_id) with
    | (st1, Except.ok _) => drain_queue st1 rest
    | (st1, Except.error _) => (st1, some ())

/-- WebsocketManager.on_open: mark the socket ready and drain the queue in
FIFO order.  The source never clears queued_subscriptions.  Second
component: some () when the drain raised. -/
def ws_on_open (st : WsState) : WsState × Option Unit :=
  let st1 := { st with ws_ready := true }
  drain_queue st1 st1.queued_subscriptions

/-- The operations of the manager's public/callback surface. -/
inductive WsOp where
  | subscribeOp (sub : Subscription) (cb : Nat)
  | unsubscribeOp (sub : Subscription) (sid : Nat)
  | openOp
  | messageOp (m : WsMsg)
deriving DecidableEq

/-- One operation, return values discarded. -/
def ws_step (st : WsState) : WsOp → WsState
  | WsOp.subscribeOp sub cb => (subscribe_with_id st sub cb none).1
  | WsOp.unsubscribeOp sub sid => (ws_unsubscribe st sub sid).1
  | WsOp.openOp => (ws_on_open st).1
  | WsOp.messageOp m => (ws_on_message st m).1

/-- Run a sequence of operations. -/
def ws_run : WsState → List WsOp → WsState
  | st, [] => st
  | st, op :: rest => ws_run (ws_step st op) rest

theorem ws_run_cons (st : WsState) (op : WsOp) (rest : List WsOp) :
    ws_run st (op :: rest) = ws_run (ws_step st op) rest := rfl

/-- Subscription ids registered under one canonical key, in order. -/
def idsUnder (st : WsState) (k : Option String) : List Nat :=
  (st.active_subscriptions k).map (fun a => a.subscription_id)

/-- Subscription ids sitting in the pre-ready queue, in order. -/
def queueIds (st : WsState) : List Nat :=
  st.queued_subscriptions.map (fun p => p.2.subscription_id)

/-- Number of openOp events in an operation sequence. -/
def countOpen (ops : List WsOp) : Nat :=
  (ops.filter (fun op => op = WsOp.openOp)).length

/-! ## Connection lifecycle and the health checker
(websocket_manager.py _health_check lines 139-182, stop lines 255-280) -/

/-- The error kinds _health_check records in _connection_error. -/
inductive ConnErr where
  | timeout
  | connLost
deriving DecidableEq

/-- The lifecycle flags of the manager: the run flags stop() clears, the
socket's keep_running/connected state and the recorded connection error. -/
structure SessionState where
  running : Bool
  stop_event : Bool
  keep_running : Bool
  socket_connected : Bool
  connection_error : Option ConnErr
deriving DecidableEq

/-- WebsocketManager.stop(): clear the run flags, set the stop event, tear
the socket down and join the background threads. -/
def session_stop (s : SessionState) : SessionState :=
  { s with running := false, stop_event := true, keep_running := false,
           socket_connected := false }

/-- Lifecycle events.  pongTimeout: the health checker observes that the time
since the last pong exceeds pong_timeout; socketLost: it observes the socket
no longer connected; callerStop: the caller invokes stop(). -/
inductive SessionEvent where
  | pongTimeout
  | socketLost
  | callerStop
deriving DecidableEq

/-- One lifecycle event, as the source handles it.  Once the stop event is
set all three background loops have exited and stop() is idempotent, so every
event leaves the state unchanged; the source contains no transition that
rebuilds the socket or re-enters a connecting state. -/
def session_step (s : SessionState) : SessionEvent → SessionState :=
  fun e =>
    if s.stop_event then s
    else
      match e with
      | SessionEvent.pongTimeout =>
        session_stop { s with connection_error := some ConnErr.timeout }
      | SessionEvent.socketLost =>
        session_stop { s with connection_error := some ConnErr.connLost }
      | SessionEvent.callerStop => session_stop s

/-- A live session right after run() has established the socket. -/
def session_init : SessionState :=
  { running := true, stop_event := false, keep_running := true,
    socket_connected := true, connection_error := none }

end HL

namespace HL

/-! # Claim theorems -/

/-- Helper: the expiry step of action_hash_data relative to the expiry-free
byte string. -/
theorem action_hash_data_some_expiry {α : Type} (packb : α → List Nat) (A : α)
    (v : Option String) (n t : Nat) :
    action_hash_data packb A v n (some t) =
      (action_hash_data packb A v n none).bind
        (fun d => (toBytesBig 8 t).map (fun tb => d ++ 0x00 :: tb)) := by
  unfold action_hash_data
  cases hnb : toBytesBig 8 n with
  | none => rfl
  | some nb =>
    cases v with
    | none =>
      cases htb : toBytesBig 8 t <;>
        simp [Option.bind, Bind.bind, htb, List.append_assoc]
    | some a =>
      cases hab : address_to_bytes a with
      | none => simp [Option.bind, Bind.bind, hab]
      | some ab =>
        cases htb : toBytesBig 8 t <;>
          simp [Option.bind, Bind.bind, hab, htb, List.append_assoc]

/-- C1: action_hash(A, v, n, e) is keccak applied to: the msgpack encoding of
A, then the 8-byte big-endian nonce, then a lone 0x00 byte when no vault
address acts on behalf, or 0x01 followed by the 20 decoded address bytes,
then (only when an expiry is present) a 0x00 byte and the 8-byte big-endian
expiry. -/
theorem action_hash_is_keccak_of_concat {α : Type} (packb : α → List Nat)
    (keccak : List Nat → List Nat) (A : α) (v : Option String) (vb : List Nat)
    (n : Nat) (e : Option Nat)
    (hn : n < 2 ^ 64)
    (he : ∀ t, e = some t → t < 2 ^ 64)
    (hv : (v = none ∧ vb = [0x00]) ∨
      (∃ a bs, v = some a ∧ address_to_bytes a = some bs ∧ bs.length = 20 ∧
        vb = 0x01 :: bs)) :
    action_hash packb keccak A v n e =
      some (keccak (packb A ++ beDigits 8 n ++ vb ++
        (match e with
         | none => []
         | some t => 0x00 :: beDigits 8 t))) := by
  have hpow : (256 : Nat) ^ 8 = 2 ^ 64 := by norm_num
  have hn8 : n < 256 ^ 8 := by rw [hpow]; exact hn
  have hnb : toBytesBig 8 n = some (beDigits 8 n) := by
    unfold toBytesBig
    rw [if_pos hn8]
  have htb : ∀ t, e = some t → toBytesBig 8 t = some (beDigits 8 t) := by
    intro t het
    have ht8 : t < 256 ^ 8 := by rw [hpow]; exact he t het
    unfold toBytesBig
    rw [if_pos ht8]
  rcases hv with ⟨hv1, hv2⟩ | ⟨a, bs, hv1, hv2, _, hv4⟩
  · subst hv1; subst hv2
    cases e with
    | none =>
      unfold action_hash action_hash_data
      simp [hnb, Option.bind, Bind.bind, List.append_assoc]
    | some t =>
      unfold action_hash action_hash_data
      simp [hnb, htb t rfl, Option.bind, Bind.bind, List.append_assoc]
  · subst hv1; subst hv4
    cases e with
    | none =>
      unfold action_hash action_hash_data
      simp [hnb, hv2, Option.bind, Bind.bind, List.append_assoc]
    | some t =>
      unfold action_hash action_hash_data
      simp [hnb, hv2, htb t rfl, Option.bind, Bind.bind, List.append_assoc]

/-- C1 witness: the hypotheses hold and the equation evaluates at a concrete
action, no vault address, nonce 5 and expiry 7. -/
theorem action_hash_is_keccak_of_concat_witness :
    action_hash (fun _ : Nat => [0x81]) id 0 none 5 (some 7) =
      some (id ([0x81] ++ beDigits 8 5 ++ [0x00] ++ 0x00 :: beDigits 8 7)) :=
  action_hash_is_keccak_of_concat (fun _ : Nat => [0x81]) id 0 none [0x00] 5
    (some 7) (by norm_num)
    (fun t ht => by cases ht; norm_num)
    (Or.inl ⟨rfl, rfl⟩)

/-- C7: with the other inputs fixed, the byte string hashed with an expiry
strictly extends the byte string hashed without one (by the 0x00 marker and
the 8 expiry bytes), so the two differ, and for any injective hash the two
digests differ: the presence of the expiry is part of the signed content. -/
theorem action_hash_expiry_presence {α : Type} (packb : α → List Nat) (A : α)
    (v : Option String) (n t : Nat) (d : List Nat)
    (ht : t < 2 ^ 64)
    (hd : action_hash_data packb A v n none = some d) :
    action_hash_data packb A v n (some t) = some (d ++ 0x00 :: beDigits 8 t) ∧
    d ++ 0x00 :: beDigits 8 t ≠ d ∧
    ∀ keccak : List Nat → List Nat, Function.Injective keccak →
      action_hash packb keccak A v n none ≠
        action_hash packb keccak A v n (some t) := by
  have ht8 : t < 256 ^ 8 := by
    have hpow : (256 : Nat) ^ 8 = 2 ^ 64 := by norm_num
    rw [hpow]; exact ht
  have htb : toBytesBig 8 t = some (beDigits 8 t) := by
    unfold toBytesBig
    rw [if_pos ht8]
  have hsome : action_hash_data packb A v n (some t) =
      some (d ++ 0x00 :: beDigits 8 t) := by
    rw [action_hash_data_some_expiry, hd]
    simp [htb]
  have hne : d ++ 0x00 :: beDigits 8 t ≠ d := by
    intro h
    have hlen := congrArg List.length h
    simp [beDigits_length] at hlen
  refine ⟨hsome, hne, ?_⟩
  intro keccak hinj h
  rw [action_hash, action_hash, hd, hsome] at h
  simp at h
  exact hne (hinj h).symm

/-- C7 witness: concrete instantiation with expiry 3. -/
theorem action_hash_expiry_presence_witness :
    action_hash_data (fun _ : Nat => [0x90]) 0 none 0 (some 3) =
      some (([0x90] ++ beDigits 8 0 ++ [0x00]) ++ 0x00 :: beDigits 8 3) ∧
    ([0x90] ++ beDigits 8 0 ++ [0x00]) ++ 0x00 :: beDigits 8 3 ≠
      [0x90] ++ beDigits 8 0 ++ [0x00] ∧
    ∀ keccak : List Nat → List Nat, Function.Injective keccak →
      action_hash (fun _ : Nat => [0x90]) keccak 0 none 0 none ≠
        action_hash (fun _ : Nat => [0x90]) keccak 0 none 0 (some 3) :=
  action_hash_expiry_presence (fun _ : Nat => [0x90]) 0 none 0 3
    ([0x90] ++ beDigits 8 0 ++ [0x00]) (by norm_num) (by decide)

/-- C8: the two exposed fixed-point precisions are 8 decimals (hashing
fields) and 6 decimals (USD amounts); the conversion fails exactly when
rounding x·10^p to the nearest integer would move the scaled value by at
least the code's epsilon 1e-3, and otherwise returns round(x·10^p) (Python
banker's rounding) with no silent adjustment. -/
theorem float_to_int_spec (x : ℚ) (p : Nat) :
    float_to_int_for_hashing x = float_to_int x 8 ∧
    float_to_usd_int x = float_to_int x 6 ∧
    (isError (float_to_int x p) = true ↔
      |((pyRound (x * 10 ^ p) : ℤ) : ℚ) - x * 10 ^ p| ≥ 1 / 1000) ∧
    (|((pyRound (x * 10 ^ p) : ℤ) : ℚ) - x * 10 ^ p| < 1 / 1000 →
      float_to_int x p = Except.ok (pyRound (x * 10 ^ p))) := by
  refine ⟨rfl, rfl, ?_, ?_⟩
  · by_cases h : |((pyRound (x * 10 ^ p) : ℤ) : ℚ) - x * 10 ^ p| ≥ 1 / 1000
    · unfold float_to_int
      rw [if_pos h]
      simpa [isError] using h
    · unfold float_to_int
      rw [if_neg h]
      simpa [isError] using h
  · intro h
    unfold float_to_int
    rw [if_neg (by exact not_le.mpr h)]

/-- C8 witness: at x = 1/10 with 8 decimals the conversion succeeds and
returns exactly 10^7. -/
theorem float_to_int_spec_witness :
    float_to_int_for_hashing (1 / 10) = float_to_int (1 / 10) 8 ∧
    float_to_int (1 / 10) 8 = Except.ok (pyRound ((1 : ℚ) / 10 * 10 ^ 8)) ∧
    pyRound ((1 : ℚ) / 10 * 10 ^ 8) = 10000000 :=
  ⟨(float_to_int_spec (1 / 10) 8).1,
    (float_to_int_spec (1 / 10) 8).2.2.2 (by norm_num [pyRound]),
    by norm_num [pyRound]⟩

/-- C10: after sign_user_signed_action the caller's mapping holds
signatureChainId = "0x66eee" and hyperliquidChain = "Mainnet"/"Testnet"
according to is_mainnet (prior values overwritten), every other key is
untouched, and add_multi_sig_fields leaves its argument unmodified. -/
theorem sign_user_signed_action_frame (a : ActionDict) (m : Bool)
    (u s : String) :
    dictGet (sign_user_signed_action_effect a m) "signatureChainId" =
      some (PyVal.str "0x66eee") ∧
    dictGet (sign_user_signed_action_effect a m) "hyperliquidChain" =
      some (PyVal.str (if m then "Mainnet" else "Testnet")) ∧
    (∀ k, k ≠ "signatureChainId" → k ≠ "hyperliquidChain" →
      dictGet (sign_user_signed_action_effect a m) k = dictGet a k) ∧
    (add_multi_sig_fields a u s).1 = a := by
  refine ⟨?_, ?_, ?_, rfl⟩
  · unfold sign_user_signed_action_effect
    rw [dictGet_dictSet_other _ _ _ _ (by decide), dictGet_dictSet_same]
  · unfold sign_user_signed_action_effect
    rw [dictGet_dictSet_same]
  · intro k h1 h2
    unfold sign_user_signed_action_effect
    rw [dictGet_dictSet_other _ _ _ _ h2, dictGet_dictSet_other _ _ _ _ h1]

/-- C10 witness: concrete mapping with a prior hyperliquidChain value:
both injected keys are set, the destination key survives, and the original
mapping is returned untouched by add_multi_sig_fields. -/
theorem sign_user_signed_action_frame_witness :
    dictGet (sign_user_signed_action_effect
        [("destination", PyVal.str "0xabc"),
         ("hyperliquidChain", PyVal.str "old")] true) "signatureChainId" =
      some (PyVal.str "0x66eee") ∧
    dictGet (sign_user_signed_action_effect
        [("destination", PyVal.str "0xabc"),
         ("hyperliquidChain", PyVal.str "old")] true) "hyperliquidChain" =
      some (PyVal.str "Mainnet") ∧
    dictGet (sign_user_signed_action_effect
        [("destination", PyVal.str "0xabc"),
         ("hyperliquidChain", PyVal.str "old")] true) "destination" =
      some (PyVal.str "0xabc") ∧
    (add_multi_sig_fields
        [("destination", PyVal.str "0xabc"),
         ("hyperliquidChain", PyVal.str "old")] "0xU" "0xS").1 =
      [("destination", PyVal.str "0xabc"),
       ("hyperliquidChain", PyVal.str "old")] := by
  obtain ⟨h1, h2, h3, h4⟩ := sign_user_signed_action_frame
    [("destination", PyVal.str "0xabc"), ("hyperliquidChain", PyVal.str "old")]
    true "0xU" "0xS"
  exact ⟨h1, h2, (h3 "destination" (by decide) (by decide)).trans rfl, h4⟩

/-! ## C6: the resolver round trip -/

theorem string_toList_append (a b : String) :
    (a ++ b).toList = a.toList ++ b.toList :=
  String.data_append a b

theorem string_mk_toList (s : String) : String.mk s.toList = s := by
  cases s
  rfl

theorem splitAtComma_append (xs ys : List Char) (h : ',' ∉ xs) :
    splitAtComma (xs ++ ',' :: ys) = some (xs, ys) := by
  induction xs with
  | nil => simp [splitAtComma]
  | cons c rest ih =>
    have hc : ¬c = ',' := by
      intro hc
      exact h (hc ▸ List.mem_cons_self c rest)
    have hr : ',' ∉ rest := fun hm => h (List.mem_cons_of_mem c hm)
    simp [splitAtComma, hc, ih hr]

/-- C6 counterexample: no total inverse of subscription_to_identifier can
round-trip every constructible request even up to symbol case.  Concretely:
the constructible bbo request has no canonical key at all (the Python
function returns None); two candle requests that are not case-variants of
each other collide on one key because the coin may contain the comma
delimiter; and the userEvents key does not record the user parameter. -/
theorem subscription_key_not_invertible :
    (¬ ∃ f : String → Option Subscription, ∀ r : Subscription,
      ∃ r2 : Subscription, (subscription_to_identifier r).bind f = some r2 ∧
        lower_subscription r2 = lower_subscription r) ∧
    subscription_to_identifier (Subscription.bbo "BTC") = none ∧
    subscription_to_identifier (Subscription.candle "a,b" "c") =
      subscription_to_identifier (Subscription.candle "a" "b,c") ∧
    lower_subscription (Subscription.candle "a,b" "c") ≠
      lower_subscription (Subscription.candle "a" "b,c") ∧
    subscription_to_identifier (Subscription.userEvents "alice") =
      subscription_to_identifier (Subscription.userEvents "bob") := by
  refine ⟨?_, by decide, by decide, by decide, by decide⟩
  rintro ⟨f, hf⟩
  obtain ⟨r2, h1, -⟩ := hf (Subscription.bbo "BTC")
  simp [subscription_to_identifier] at h1

/-- C6 (amended): restricted to the nine request kinds
subscription_to_identifier handles, with comma-free coins, the spec-modelled
to_request parses the produced key back to the request up to lower-casing of
coin/user symbols and up to the user parameter of the two singleton topics
(whose keys do not record it); the four other constructible kinds (bbo,
webData2, activeAssetCtx, activeAssetData) are assigned no key at all. -/
theorem to_request_inverts_identifier (r : Subscription) (k : String)
    (hk : subscription_to_identifier r = some k)
    (hc : ∀ c i, r = Subscription.candle c i → ',' ∉ (pyLower c).toList) :
    to_request k = some (key_normal_form r) := by
  cases r with
  | allMids =>
    injection hk with h
    subst h
    rfl
  | userEvents u =>
    injection hk with h
    subst h
    rfl
  | orderUpdates u =>
    injection hk with h
    subst h
    rfl
  | l2Book c =>
    injection hk with h
    subst h
    unfold to_request
    have h1 : ("l2Book:" ++ pyLower c).toList =
        'l' :: '2' :: 'B' :: 'o' :: 'o' :: 'k' :: ':' :: (pyLower c).toList := by
      rw [string_toList_append]
      rfl
    rw [h1]
    simp [to_request_chars, stripPrefixChars, string_mk_toList,
      key_normal_form, lower_subscription]
  | trades c =>
    injection hk with h
    subst h
    unfold to_request
    have h1 : ("trades:" ++ pyLower c).toList =
        't' :: 'r' :: 'a' :: 'd' :: 'e' :: 's' :: ':' :: (pyLower c).toList := by
      rw [string_toList_append]
      rfl
    rw [h1]
    simp [to_request_chars, stripPrefixChars, string_mk_toList,
      key_normal_form, lower_subscription]
  | userFills u =>
    injection hk with h
    subst h
    unfold to_request
    have h1 : ("userFills:" ++ pyLower u).toList =
        'u' :: 's' :: 'e' :: 'r' :: 'F' :: 'i' :: 'l' :: 'l' :: 's' :: ':' ::
          (pyLower u).toList := by
      rw [string_toList_append]
      rfl
    rw [h1]
    simp [to_request_chars, stripPrefixChars, string_mk_toList,
      key_normal_form, lower_subscription]
  | userFundings u =>
    injection hk with h
    subst h
    unfold to_request
    have h1 : ("userFundings:" ++ pyLower u).toList =
        'u' :: 's' :: 'e' :: 'r' :: 'F' :: 'u' :: 'n' :: 'd' :: 'i' :: 'n' ::
          'g' :: 's' :: ':' :: (pyLower u).toList := by
      rw [string_toList_append]
      rfl
    rw [h1]
    simp [to_request_chars, stripPrefixChars, string_mk_toList,
      key_normal_form, lower_subscription]
  | userNonFundingLedgerUpdates u =>
    injection hk with h
    subst h
    unfold to_request
    have h1 : ("userNonFundingLedgerUpdates:" ++ pyLower u).toList =
        'u' :: 's' :: 'e' :: 'r' :: 'N' :: 'o' :: 'n' :: 'F' :: 'u' :: 'n' ::
          'd' :: 'i' :: 'n' :: 'g' :: 'L' :: 'e' :: 'd' :: 'g' :: 'e' :: 'r' ::
          'U' :: 'p' :: 'd' :: 'a' :: 't' :: 'e' :: 's' :: ':' ::
          (pyLower u).toList := by
      rw [string_toList_append]
      rfl
    rw [h1]
    simp [to_request_chars, stripPrefixChars, string_mk_toList,
      key_normal_form, lower_subscription]
  | candle c i =>
    injection hk with h
    subst h
    have hnc : ',' ∉ (pyLower c).toList := hc c i rfl
    unfold to_request
    have h1 : ("candle:" ++ pyLower c ++ "," ++ i).toList =
        'c' :: 'a' :: 'n' :: 'd' :: 'l' :: 'e' :: ':' ::
          ((pyLower c).toList ++ ',' :: i.toList) := by
      simp only [string_toList_append, List.append_assoc]
      rfl
    rw [h1]
    simp [to_request_chars, stripPrefixChars, key_normal_form,
      lower_subscription]
    exact ⟨(pyLower c).toList, i.toList, splitAtComma_append _ _ hnc,
      string_mk_toList _, string_mk_toList _⟩
  | bbo c => simp [subscription_to_identifier] at hk
  | webData2 u => simp [subscription_to_identifier] at hk
  | activeAssetCtx c => simp [subscription_to_identifier] at hk
  | activeAssetData u c => simp [subscription_to_identifier] at hk

/-- C6 witness: the amended round trip at a concrete candle request with a
mixed-case coin. -/
theorem to_request_inverts_identifier_witness :
    subscription_to_identifier (Subscription.candle "BTC" "1m") =
      some "candle:btc,1m" ∧
    to_request "candle:btc,1m" =
      some (key_normal_form (Subscription.candle "BTC" "1m")) :=
  ⟨by decide,
    to_request_inverts_identifier (Subscription.candle "BTC" "1m")
      "candle:btc,1m" (by decide)
      (fun c i hci => by cases hci; decide)⟩

/-! ## C4: unsubscribe for an id that is not registered -/

/-- C4 counterexample: with the socket ready and no subscriber registered at
all under the key, unsubscribing an unknown id returns false and leaves the
registry empty, but the source still sends a wire-level unsubscribe message
(the filtered list is empty, which is exactly its send condition). -/
theorem unsubscribe_absent_sends_on_empty :
    (ws_unsubscribe (ws_on_open ws_init).1 Subscription.allMids 1).2 =
      Except.ok false ∧
    (ws_unsubscribe (ws_on_open ws_init).1 Subscription.allMids 1).1.sent =
      [WireMsg.unsubscribeMsg Subscription.allMids] := by
  constructor <;> rfl

/-- C4 (amended): with the socket ready and id not registered under the
request's key, unsubscribe returns false and leaves the registry pointwise
unchanged; it sends nothing when the key still has at least one subscriber,
but when the key has no subscribers at all it sends one spurious wire-level
unsubscribe message. -/
theorem unsubscribe_absent_id (st : WsState) (sub : Subscription) (sid : Nat)
    (hready : st.ws_ready = true)
    (habs : sid ∉ idsUnder st (subscription_to_identifier sub)) :
    (ws_unsubscribe st sub sid).2 = Except.ok false ∧
    (∀ k, (ws_unsubscribe st sub sid).1.active_subscriptions k =
      st.active_subscriptions k) ∧
    (st.active_subscriptions (subscription_to_identifier sub) ≠ [] →
      (ws_unsubscribe st sub sid).1.sent = st.sent) ∧
    (st.active_subscriptions (subscription_to_identifier sub) = [] →
      (ws_unsubscribe st sub sid).1.sent =
        st.sent ++ [WireMsg.unsubscribeMsg sub]) := by
  have hfil : (st.active_subscriptions (subscription_to_identifier sub)).filter
      (fun a => a.subscription_id ≠ sid) =
      st.active_subscriptions (subscription_to_identifier sub) := by
    apply List.filter_eq_self.mpr
    intro a ha
    have hne : a.subscription_id ≠ sid := by
      intro he
      apply habs
      rw [← he]
      exact List.mem_map_of_mem _ ha
    simpa using hne
  have hnr : ¬st.ws_ready = false := by rw [hready]; simp
  unfold ws_unsubscribe
  rw [if_neg hnr, hfil]
  refine ⟨?_, ?_, ?_, ?_⟩
  · simp
  · intro k
    by_cases hl :
        (st.active_subscriptions (subscription_to_identifier sub)).length = 0
    · rw [if_pos hl]
      by_cases hk : k = subscription_to_identifier sub <;> simp [regSet, hk]
    · rw [if_neg hl]
      by_cases hk : k = subscription_to_identifier sub <;> simp [regSet, hk]
  · intro hne
    have hl :
        ¬(st.active_subscriptions (subscription_to_identifier sub)).length = 0 := by
      simpa using hne
    rw [if_neg hl]
    rfl
  · intro heq
    have hl :
        (st.active_subscriptions (subscription_to_identifier sub)).length = 0 := by
      simp [heq]
    rw [if_pos hl]
    rfl

/-- C4 witness: ready state with one subscriber (callback 3, id 1) under
trades:btc; unsubscribing the unknown id 2 returns false, keeps the registry
and sends nothing. -/
theorem unsubscribe_absent_id_witness :
    (ws_unsubscribe
      (subscribe_with_id (ws_on_open ws_init).1 (Subscription.trades "BTC") 3
        none).1 (Subscription.trades "BTC") 2).2 = Except.ok false ∧
    (ws_unsubscribe
      (subscribe_with_id (ws_on_open ws_init).1 (Subscription.trades "BTC") 3
        none).1 (Subscription.trades "BTC") 2).1.active_subscriptions
        (some "trades:btc") = [⟨3, 1⟩] ∧
    (ws_unsubscribe
      (subscribe_with_id (ws_on_open ws_init).1 (Subscription.trades "BTC") 3
        none).1 (Subscription.trades "BTC") 2).1.sent =
      [WireMsg.subscribeMsg (Subscription.trades "BTC")] := by
  obtain ⟨h1, h2, h3, -⟩ := unsubscribe_absent_id
    (subscribe_with_id (ws_on_open ws_init).1 (Subscription.trades "BTC") 3
      none).1 (Subscription.trades "BTC") 2 (by rfl) (by decide)
  refine ⟨h1, ?_, ?_⟩
  · rw [show (some "trades:btc") =
      subscription_to_identifier (Subscription.trades "BTC") from by decide,
      h2]
    decide
  · rw [h3 (by decide)]
    rfl

/-! ## C3: multiplexing two subscribers on one canonical key -/

theorem append_toList_ne (p x t : String)
    (hlen : t.toList.length < p.toList.length) : p ++ x ≠ t := by
  intro h
  have h2 := congrArg (fun s => s.toList.length) h
  simp only [string_toList_append, List.length_append] at h2
  omega

theorem subscription_id_ne_pong (sub : Subscription) :
    subscription_to_identifier sub ≠ some "pong" := by
  cases sub with
  | allMids => decide
  | userEvents u => simp [subscription_to_identifier]
  | orderUpdates u => simp [subscription_to_identifier]
  | bbo c => simp [subscription_to_identifier]
  | webData2 u => simp [subscription_to_identifier]
  | activeAssetCtx c => simp [subscription_to_identifier]
  | activeAssetData u c => simp [subscription_to_identifier]
  | l2Book c =>
    simp only [subscription_to_identifier, ne_eq, Option.some.injEq]
    exact append_toList_ne _ _ _ (by decide)
  | trades c =>
    simp only [subscription_to_identifier, ne_eq, Option.some.injEq]
    exact append_toList_ne _ _ _ (by decide)
  | userFills u =>
    simp only [subscription_to_identifier, ne_eq, Option.some.injEq]
    exact append_toList_ne _ _ _ (by decide)
  | userFundings u =>
    simp only [subscription_to_identifier, ne_eq, Option.some.injEq]
    exact append_toList_ne _ _ _ (by decide)
  | userNonFundingLedgerUpdates u =>
    simp only [subscription_to_identifier, ne_eq, Option.some.injEq]
    exact append_toList_ne _ _ _ (by decide)
  | candle c i =>
    simp only [subscription_to_identifier, ne_eq, Option.some.injEq]
    intro h
    have h2 := congrArg (fun s => s.toList.length) h
    simp only [string_toList_append, List.length_append] at h2
    have e1 : "candle:".toList.length = 7 := rfl
    have e2 : ",".toList.length = 1 := rfl
    have e3 : "pong".toList.length = 4 := rfl
    rw [e1, e2, e3] at h2
    omega

/-- Projections of subscribe in the ready, non-singleton-conflict case:
one fresh id, one wire subscribe, one registry append, all else untouched. -/
theorem subscribe_with_id_ready_proj (st : WsState) (sub : Subscription)
    (ident : String) (cb : Nat)
    (hready : st.ws_ready = true)
    (hident : subscription_to_identifier sub = some ident)
    (hns1 : ident ≠ "userEvents") (hns2 : ident ≠ "orderUpdates") :
    (subscribe_with_id st sub cb none).2 =
      Except.ok (st.subscription_id_counter + 1) ∧
    (subscribe_with_id st sub cb none).1.ws_ready = true ∧
    (subscribe_with_id st sub cb none).1.subscription_id_counter =
      st.subscription_id_counter + 1 ∧
    (subscribe_with_id st sub cb none).1.sent =
      st.sent ++ [WireMsg.subscribeMsg sub] ∧
    (subscribe_with_id st sub cb none).1.active_subscriptions (some ident) =
      st.active_subscriptions (some ident) ++
        [⟨cb, st.subscription_id_counter + 1⟩] ∧
    (∀ k, k ≠ some ident →
      (subscribe_with_id st sub cb none).1.active_subscriptions k =
        st.active_subscriptions k) ∧
    (subscribe_with_id st sub cb none).1.queued_subscriptions =
      st.queued_subscriptions := by
  have hnr : ¬st.ws_ready = false := by rw [hready]; simp
  have hsing : ¬((subscription_to_identifier sub = some "userEvents" ∨
      subscription_to_identifier sub = some "orderUpdates") ∧
      (st.active_subscriptions (subscription_to_identifier sub)).length ≠ 0) := by
    rintro ⟨h | h, -⟩
    · rw [hident] at h
      exact hns1 (Option.some.inj h)
    · rw [hident] at h
      exact hns2 (Option.some.inj h)
  unfold subscribe_with_id subscribe_core
  rw [if_neg hnr, if_neg hsing]
  refine ⟨rfl, hready, rfl, rfl, ?_, ?_, rfl⟩
  · simp [regSet, hident]
  · intro k hk
    simp [regSet, hident, hk]

/-- Projections of unsubscribe in the ready case: the registry entry is
replaced by the filtered list, a wire unsubscribe goes out exactly when that
list is empty, and the result says whether anything was removed. -/
theorem ws_unsubscribe_ready_proj (st : WsState) (sub : Subscription)
    (sid : Nat) (hready : st.ws_ready = true) :
    (ws_unsubscribe st sub sid).2 = Except.ok (decide
      ((st.active_subscriptions (subscription_to_identifier sub)).length ≠
        ((st.active_subscriptions (subscription_to_identifier sub)).filter
          (fun a => a.subscription_id ≠ sid)).length)) ∧
    (∀ k, (ws_unsubscribe st sub sid).1.active_subscriptions k =
      if k = subscription_to_identifier sub then
        (st.active_subscriptions (subscription_to_identifier sub)).filter
          (fun a => a.subscription_id ≠ sid)
      else st.active_subscriptions k) ∧
    (ws_unsubscribe st sub sid).1.sent =
      (if ((st.active_subscriptions (subscription_to_identifier sub)).filter
          (fun a => a.subscription_id ≠ sid)).length = 0 then
        st.sent ++ [WireMsg.unsubscribeMsg sub] else st.sent) ∧
    (ws_unsubscribe st sub sid).1.ws_ready = true ∧
    (ws_unsubscribe st sub sid).1.subscription_id_counter =
      st.subscription_id_counter := by
  have hnr : ¬st.ws_ready = false := by rw [hready]; simp
  unfold ws_unsubscribe
  rw [if_neg hnr]
  refine ⟨rfl, ?_, ?_, ?_, ?_⟩
  · intro k
    simp only [regSet]
    split
    · rfl
    · split <;> rfl
  · simp only [regSet]
    split <;> rfl
  · simp only [regSet]
    split <;> exact hready
  · simp only [regSet]
    split <;> rfl

/-- C3 counterexample: with the session ready and trades:btc not previously
subscribed, two subscribe calls for the same canonical key send TWO
wire-level subscribe messages, not one: the source sends on every subscribe
call and deduplicates only on unsubscribe. -/
theorem two_subscribes_send_two_messages :
    (subscribe_with_id
      (subscribe_with_id (ws_on_open ws_init).1 (Subscription.trades "BTC") 1
        none).1 (Subscription.trades "BTC") 2 none).1.sent =
      [WireMsg.subscribeMsg (Subscription.trades "BTC"),
       WireMsg.subscribeMsg (Subscription.trades "BTC")] := by
  rfl

/-- C3 (amended): from a ready state with no subscriber under the
non-singleton key, each of the two subscribe calls sends its own wire-level
subscribe message (two in total) and returns a fresh id; unsubscribing the
first id sends nothing, leaves the second callback registered and still
dispatched to; unsubscribing the remaining id sends exactly one wire-level
unsubscribe. -/
theorem multiplex_shared_key (st : WsState) (sub : Subscription)
    (ident : String) (c1 c2 : Nat) (m : WsMsg)
    (hready : st.ws_ready = true)
    (hident : subscription_to_identifier sub = some ident)
    (hns1 : ident ≠ "userEvents") (hns2 : ident ≠ "orderUpdates")
    (hempty : st.active_subscriptions (some ident) = [])
    (hm : ws_msg_to_identifier m = some ident) :
    (subscribe_with_id st sub c1 none).2 =
      Except.ok (st.subscription_id_counter + 1) ∧
    (subscribe_with_id (subscribe_with_id st sub c1 none).1 sub c2 none).2 =
      Except.ok (st.subscription_id_counter + 2) ∧
    (subscribe_with_id (subscribe_with_id st sub c1 none).1 sub c2
        none).1.sent =
      st.sent ++ [WireMsg.subscribeMsg sub, WireMsg.subscribeMsg sub] ∧
    (ws_unsubscribe
      (subscribe_with_id (subscribe_with_id st sub c1 none).1 sub c2 none).1
      sub (st.subscription_id_counter + 1)).2 = Except.ok true ∧
    (ws_unsubscribe
      (subscribe_with_id (subscribe_with_id st sub c1 none).1 sub c2 none).1
      sub (st.subscription_id_counter + 1)).1.sent =
      st.sent ++ [WireMsg.subscribeMsg sub, WireMsg.subscribeMsg sub] ∧
    (ws_unsubscribe
      (subscribe_with_id (subscribe_with_id st sub c1 none).1 sub c2 none).1
      sub (st.subscription_id_counter + 1)).1.active_subscriptions
        (some ident) = [⟨c2, st.subscription_id_counter + 2⟩] ∧
    (ws_on_message
      (ws_unsubscribe
        (subscribe_with_id (subscribe_with_id st sub c1 none).1 sub c2 none).1
        sub (st.subscription_id_counter + 1)).1 m).2 = [c2] ∧
    (ws_unsubscribe
      (ws_unsubscribe
        (subscribe_with_id (subscribe_with_id st sub c1 none).1 sub c2 none).1
        sub (st.subscription_id_counter + 1)).1
      sub (st.subscription_id_counter + 2)).2 = Except.ok true ∧
    (ws_unsubscribe
      (ws_unsubscribe
        (subscribe_with_id (subscribe_with_id st sub c1 none).1 sub c2 none).1
        sub (st.subscription_id_counter + 1)).1
      sub (st.subscription_id_counter + 2)).1.sent =
      st.sent ++ [WireMsg.subscribeMsg sub, WireMsg.subscribeMsg sub] ++
        [WireMsg.unsubscribeMsg sub] := by
  obtain ⟨a1, a2, a3, a4, a5, a6, a7⟩ :=
    subscribe_with_id_ready_proj st sub ident c1 hready hident hns1 hns2
  obtain ⟨b1, b2, b3, b4, b5, b6, b7⟩ :=
    subscribe_with_id_ready_proj (subscribe_with_id st sub c1 none).1 sub
      ident c2 a2 hident hns1 hns2
  rw [a3] at b1 b5
  have hreg2 :
      (subscribe_with_id (subscribe_with_id st sub c1 none).1 sub c2
        none).1.active_subscriptions (some ident) =
      [⟨c1, st.subscription_id_counter + 1⟩,
       ⟨c2, st.subscription_id_counter + 2⟩] := by
    rw [b5, a5, hempty]
    rfl
  have hsent2 :
      (subscribe_with_id (subscribe_with_id st sub c1 none).1 sub c2
        none).1.sent =
      st.sent ++ [WireMsg.subscribeMsg sub, WireMsg.subscribeMsg sub] := by
    rw [b4, a4, List.append_assoc]
    rfl
  obtain ⟨u1, u2, u3, u4, u5⟩ := ws_unsubscribe_ready_proj
    (subscribe_with_id (subscribe_with_id st sub c1 none).1 sub c2 none).1 sub
    (st.subscription_id_counter + 1) b2
  have hne21 : st.subscription_id_counter + 2 ≠ st.subscription_id_counter + 1 := by
    omega
  rw [hident] at u1 u2 u3
  rw [hreg2] at u1 u2 u3
  have hfil1 :
      ([⟨c1, st.subscription_id_counter + 1⟩,
        ⟨c2, st.subscription_id_counter + 2⟩] :
        List ActiveSubscription).filter
        (fun a => a.subscription_id ≠ st.subscription_id_counter + 1) =
      [⟨c2, st.subscription_id_counter + 2⟩] := by
    simp [List.filter, hne21]
  rw [hfil1] at u1 u2 u3
  have hu2reg : (ws_unsubscribe
      (subscribe_with_id (subscribe_with_id st sub c1 none).1 sub c2 none).1
      sub (st.subscription_id_counter + 1)).1.active_subscriptions
        (some ident) = [⟨c2, st.subscription_id_counter + 2⟩] := by
    rw [u2 (some ident), if_pos rfl]
  have hu2sent : (ws_unsubscribe
      (subscribe_with_id (subscribe_with_id st sub c1 none).1 sub c2 none).1
      sub (st.subscription_id_counter + 1)).1.sent =
      st.sent ++ [WireMsg.subscribeMsg sub, WireMsg.subscribeMsg sub] := by
    rw [u3, if_neg (by simp), hsent2]
  have hpong : ident ≠ "pong" := by
    intro h
    exact subscription_id_ne_pong sub (by rw [hident, h])
  have hdisp : (ws_on_message
      (ws_unsubscribe
        (subscribe_with_id (subscribe_with_id st sub c1 none).1 sub c2 none).1
        sub (st.subscription_id_counter + 1)).1 m).2 = [c2] := by
    unfold ws_on_message
    rw [hm]
    simp only [if_neg hpong]
    rw [hu2reg]
    rfl
  obtain ⟨v1, v2, v3, v4, v5⟩ := ws_unsubscribe_ready_proj
    (ws_unsubscribe
      (subscribe_with_id (subscribe_with_id st sub c1 none).1 sub c2 none).1
      sub (st.subscription_id_counter + 1)).1 sub
    (st.subscription_id_counter + 2) u4
  rw [hident] at v1 v3
  rw [hu2reg] at v1 v3
  have hfil2 : ([⟨c2, st.subscription_id_counter + 2⟩] :
      List ActiveSubscription).filter
        (fun a => a.subscription_id ≠ st.subscription_id_counter + 2) = [] := by
    simp [List.filter]
  rw [hfil2] at v1 v3
  have hv3 : (ws_unsubscribe
      (ws_unsubscribe
        (subscribe_with_id (subscribe_with_id st sub c1 none).1 sub c2 none).1
        sub (st.subscription_id_counter + 1)).1
      sub (st.subscription_id_counter + 2)).1.sent =
      st.sent ++ [WireMsg.subscribeMsg sub, WireMsg.subscribeMsg sub] ++
        [WireMsg.unsubscribeMsg sub] := by
    rw [v3, if_pos (show ([] : List ActiveSubscription).length = 0 from rfl),
      hu2sent]
  refine ⟨a1, b1, hsent2, ?_, hu2sent, hu2reg, hdisp, ?_, hv3⟩
  · rw [u1]
    rfl
  · rw [v1]
    rfl

/-- C3 witness: concrete run at trades:BTC from the freshly opened session
with callbacks 1 and 2 and a matching trades message. -/
theorem multiplex_shared_key_witness :
    (subscribe_with_id (ws_on_open ws_init).1 (Subscription.trades "BTC") 1
      none).2 = Except.ok 1 ∧
    (ws_on_message
      (ws_unsubscribe
        (subscribe_with_id
          (subscribe_with_id (ws_on_open ws_init).1 (Subscription.trades "BTC")
            1 none).1 (Subscription.trades "BTC") 2 none).1
        (Subscription.trades "BTC") 1).1 (WsMsg.trades ["BTC"])).2 = [2] ∧
    (ws_unsubscribe
      (ws_unsubscribe
        (subscribe_with_id
          (subscribe_with_id (ws_on_open ws_init).1 (Subscription.trades "BTC")
            1 none).1 (Subscription.trades "BTC") 2 none).1
        (Subscription.trades "BTC") 1).1
      (Subscription.trades "BTC") 2).1.sent =
      [WireMsg.subscribeMsg (Subscription.trades "BTC"),
       WireMsg.subscribeMsg (Subscription.trades "BTC"),
       WireMsg.unsubscribeMsg (Subscription.trades "BTC")] := by
  obtain ⟨h1, -, -, -, -, -, h7, -, h9⟩ := multiplex_shared_key
    (ws_on_open ws_init).1 (Subscription.trades "BTC") "trades:btc" 1 2
    (WsMsg.trades ["BTC"]) (by rfl) (by decide) (by decide) (by decide)
    (by rfl) (by decide)
  exact ⟨h1, h7, h9⟩

/-! ## C5: subscriptions queued before the socket is ready -/

/-- The queue contents produced by subscribing to reqs in order starting at
counter value c: ids c+1, c+2, ... in FIFO order. -/
def queue_after (c : Nat) : List (Subscription × Nat) →
    List (Subscription × ActiveSubscription)
  | [] => []
  | (sub, cb) :: rest => (sub, ⟨cb, c + 1⟩) :: queue_after (c + 1) rest

/-- One not-ready subscribe call: fresh id, no raise, no send, one queue
append. -/
theorem subscribe_with_id_not_ready (st : WsState) (sub : Subscription)
    (cb : Nat) (h : st.ws_ready = false) :
    subscribe_with_id st sub cb none =
      ({ st with
          subscription_id_counter := st.subscription_id_counter + 1,
          queued_subscriptions := st.queued_subscriptions ++
            [(sub, ⟨cb, st.subscription_id_counter + 1⟩)],
          allocated_ids := st.allocated_ids ++
            [st.subscription_id_counter + 1] },
        Except.ok (st.subscription_id_counter + 1)) := by
  unfold subscribe_with_id subscribe_core
  rw [if_pos h]

/-- Running only subscribe operations from a not-ready state: the counter
advances by the number of requests, the queue gains them in FIFO order with
the freshly allocated ids, and nothing else changes. -/
theorem ws_run_subscribes_not_ready (reqs : List (Subscription × Nat)) :
    ∀ st, st.ws_ready = false →
    ws_run st (reqs.map (fun p => WsOp.subscribeOp p.1 p.2)) =
      { st with
        subscription_id_counter := st.subscription_id_counter + reqs.length,
        queued_subscriptions := st.queued_subscriptions ++
          queue_after st.subscription_id_counter reqs,
        allocated_ids := st.allocated_ids ++
          (queue_after st.subscription_id_counter reqs).map
            (fun p => p.2.subscription_id) } := by
  induction reqs with
  | nil =>
    intro st h
    simp [ws_run, queue_after]
  | cons hd rest ih =>
    intro st h
    obtain ⟨sub, cb⟩ := hd
    have hstep : ws_step st (WsOp.subscribeOp sub cb) =
        { st with
          subscription_id_counter := st.subscription_id_counter + 1,
          queued_subscriptions := st.queued_subscriptions ++
            [(sub, ⟨cb, st.subscription_id_counter + 1⟩)],
          allocated_ids := st.allocated_ids ++
            [st.subscription_id_counter + 1] } := by
      show (subscribe_with_id st sub cb none).1 = _
      rw [subscribe_with_id_not_ready st sub cb h]
    rw [List.map_cons, ws_run_cons, hstep]
    rw [ih { st with
        subscription_id_counter := st.subscription_id_counter + 1,
        queued_subscriptions := st.queued_subscriptions ++
          [(sub, ActiveSubscription.mk cb (st.subscription_id_counter + 1))],
        allocated_ids := st.allocated_ids ++
          [st.subscription_id_counter + 1] } h]
    simp only [queue_after, WsState.mk.injEq, List.map_cons,
      List.append_assoc, List.singleton_append, List.length_cons]
    exact ⟨by omega, trivial, trivial, trivial, trivial, trivial⟩

/-- subscribe_core in the ready case when the singleton guard does not
fire: register and send. -/
theorem subscribe_core_ready_no_conflict (st : WsState) (sub : Subscription)
    (cb sid : Nat) (hready : st.ws_ready = true)
    (hcond : ¬((subscription_to_identifier sub = some "userEvents" ∨
      subscription_to_identifier sub = some "orderUpdates") ∧
      (st.active_subscriptions (subscription_to_identifier sub)).length ≠ 0)) :
    subscribe_core st sub cb sid =
      ({ regSet st (subscription_to_identifier sub)
          (st.active_subscriptions (subscription_to_identifier sub) ++
            [⟨cb, sid⟩]) with
        sent := st.sent ++ [WireMsg.subscribeMsg sub] }, Except.ok sid) := by
  have hnr : ¬st.ws_ready = false := by rw [hready]; simp
  unfold subscribe_core
  rw [if_neg hnr, if_neg hcond]

/-- The on_open drain loop on a queue in which each singleton topic appears
at most once (counting what is already registered): no raise, one wire
subscribe per queued pair in FIFO order, each pair appended to the registry
under its key; counter, allocated ids and the queue itself untouched. -/
theorem drain_queue_ok (q : List (Subscription × ActiveSubscription)) :
    ∀ st : WsState, st.ws_ready = true →
    (∀ s2 : String, s2 = "userEvents" ∨ s2 = "orderUpdates" →
      (st.active_subscriptions (some s2)).length +
        (q.filter (fun p =>
          subscription_to_identifier p.1 = some s2)).length ≤ 1) →
    (drain_queue st q).2 = none ∧
    (drain_queue st q).1.sent =
      st.sent ++ q.map (fun p => WireMsg.subscribeMsg p.1) ∧
    (∀ k, (drain_queue st q).1.active_subscriptions k =
      st.active_subscriptions k ++
        (q.filter (fun p => subscription_to_identifier p.1 = k)).map
          (fun p => p.2)) ∧
    (drain_queue st q).1.queued_subscriptions = st.queued_subscriptions ∧
    (drain_queue st q).1.ws_ready = true ∧
    (drain_queue st q).1.subscription_id_counter =
      st.subscription_id_counter ∧
    (drain_queue st q).1.allocated_ids = st.allocated_ids := by
  induction q with
  | nil =>
    intro st hready hsing
    refine ⟨rfl, by simp [drain_queue], ?_, rfl, hready, rfl, rfl⟩
    intro k
    simp [drain_queue]
  | cons hd rest ih =>
    intro st hready hsing
    obtain ⟨sub, a⟩ := hd
    have hcond : ¬((subscription_to_identifier sub = some "userEvents" ∨
        subscription_to_identifier sub = some "orderUpdates") ∧
        (st.active_subscriptions
          (subscription_to_identifier sub)).length ≠ 0) := by
      rintro ⟨hor, hlen⟩
      have hs2 : ∃ s2 : String, (s2 = "userEvents" ∨ s2 = "orderUpdates") ∧
          subscription_to_identifier sub = some s2 := by
        rcases hor with h | h
        · exact ⟨"userEvents", Or.inl rfl, h⟩
        · exact ⟨"orderUpdates", Or.inr rfl, h⟩
      obtain ⟨s2, hs2a, hs2b⟩ := hs2
      have hkey := hsing s2 hs2a
      rw [hs2b] at hlen
      have hhd : ((((sub, a) :: rest).filter (fun p =>
          subscription_to_identifier p.1 = some s2)).length) ≥ 1 := by
        rw [List.filter_cons_of_pos (by simpa using hs2b)]
        simp
      omega
    have hstep := subscribe_core_ready_no_conflict st sub a.callback
      a.subscription_id hready hcond
    have hun : drain_queue st ((sub, a) :: rest) =
        drain_queue
          ({ regSet st (subscription_to_identifier sub)
              (st.active_subscriptions (subscription_to_identifier sub) ++
                [ActiveSubscription.mk a.callback a.subscription_id]) with
            sent := st.sent ++ [WireMsg.subscribeMsg sub] }) rest := by
      show (match subscribe_with_id st sub a.callback
          (some a.subscription_id) with
        | (st1, Except.ok _) => drain_queue st1 rest
        | (st1, Except.error _) => (st1, some ())) = _
      rw [show subscribe_with_id st sub a.callback (some a.subscription_id) =
        subscribe_core st sub a.callback a.subscription_id from rfl, hstep]
    obtain ⟨i1, i2, i3, i4, i5, i6, i7⟩ := ih
      ({ regSet st (subscription_to_identifier sub)
          (st.active_subscriptions (subscription_to_identifier sub) ++
            [ActiveSubscription.mk a.callback a.subscription_id]) with
        sent := st.sent ++ [WireMsg.subscribeMsg sub] })
      hready
      (by
        intro s2 hs2
        have hkey := hsing s2 hs2
        by_cases hid : subscription_to_identifier sub = some s2
        · have hfil : (((sub, a) :: rest).filter (fun p =>
              subscription_to_identifier p.1 = some s2)).length =
              1 + (rest.filter (fun p =>
                subscription_to_identifier p.1 = some s2)).length := by
            rw [List.filter_cons_of_pos (by simpa using hid)]
            simp [Nat.add_comm]
          have hreg : ({ regSet st (subscription_to_identifier sub)
              (st.active_subscriptions (subscription_to_identifier sub) ++
                [ActiveSubscription.mk a.callback a.subscription_id]) with
            sent := st.sent ++
              [WireMsg.subscribeMsg sub] }).active_subscriptions (some s2) =
              st.active_subscriptions (some s2) ++
                [ActiveSubscription.mk a.callback a.subscription_id] := by
            simp only [regSet]
            rw [if_pos hid.symm, hid]
          rw [hreg]
          rw [hfil] at hkey
          simp only [List.length_append, List.length_cons, List.length_nil]
          omega
        · have hreg : ({ regSet st (subscription_to_identifier sub)
              (st.active_subscriptions (subscription_to_identifier sub) ++
                [ActiveSubscription.mk a.callback a.subscription_id]) with
            sent := st.sent ++
              [WireMsg.subscribeMsg sub] }).active_subscriptions (some s2) =
              st.active_subscriptions (some s2) := by
            simp only [regSet]
            rw [if_neg (fun hx => hid hx.symm)]
          rw [hreg]
          have hfil : (((sub, a) :: rest).filter (fun p =>
              subscription_to_identifier p.1 = some s2)).length =
              (rest.filter (fun p =>
                subscription_to_identifier p.1 = some s2)).length := by
            rw [List.filter_cons_of_neg (by simpa using hid)]
          rw [hfil] at hkey
          omega)
    rw [hun]
    refine ⟨i1, ?_, ?_, i4, i5, i6, i7⟩
    · rw [i2]
      simp [List.append_assoc]
    · intro k
      rw [i3 k]
      by_cases hk : subscription_to_identifier sub = k
      · have hreg : ({ regSet st (subscription_to_identifier sub)
            (st.active_subscriptions (subscription_to_identifier sub) ++
              [ActiveSubscription.mk a.callback a.subscription_id]) with
          sent := st.sent ++
            [WireMsg.subscribeMsg sub] }).active_subscriptions k =
            st.active_subscriptions k ++
              [ActiveSubscription.mk a.callback a.subscription_id] := by
          simp only [regSet]
          rw [if_pos hk.symm, hk]
        rw [hreg, List.filter_cons_of_pos (by simpa using hk)]
        simp [List.append_assoc]
      · have hreg : ({ regSet st (subscription_to_identifier sub)
            (st.active_subscriptions (subscription_to_identifier sub) ++
              [ActiveSubscription.mk a.callback a.subscription_id]) with
          sent := st.sent ++
            [WireMsg.subscribeMsg sub] }).active_subscriptions k =
            st.active_subscriptions k := by
          simp only [regSet]
          rw [if_neg (fun hx => hk hx.symm)]
        rw [hreg, List.filter_cons_of_neg (by simpa using hk)]

/-- C5 counterexample: queue two userEvents subscriptions before the first
connect, then open.  The drain raises on the second queued request after
sending only ONE wire subscribe for TWO queued requests, and the queue is
not cleared (the pairs are copied into the registry, not moved). -/
theorem queued_flush_counterexample :
    (ws_run ws_init [WsOp.subscribeOp (Subscription.userEvents "u") 1,
      WsOp.subscribeOp (Subscription.userEvents "v") 2, WsOp.openOp]).sent =
      [WireMsg.subscribeMsg (Subscription.userEvents "u")] ∧
    (ws_run ws_init [WsOp.subscribeOp (Subscription.userEvents "u") 1,
      WsOp.subscribeOp (Subscription.userEvents "v") 2,
      WsOp.openOp]).queued_subscriptions.length = 2 := by
  constructor <;> rfl

/-- C5 (amended): every subscribe call made before the socket is ready
returns a fresh id without raising and without sending; on the transition to
Ready, provided no singleton topic (userEvents/orderUpdates) occurs more than
once among the queued requests, exactly one wire-level subscribe message is
sent per queued request in FIFO order, and each queued (callback, id) pair is
appended to the registry under its canonical key; the queue itself is not
cleared (the source omits that step), so the pairs are copied rather than
moved. -/
theorem queued_subscriptions_flush (reqs : List (Subscription × Nat))
    (hsing : ∀ s2 : String, s2 = "userEvents" ∨ s2 = "orderUpdates" →
      ((queue_after 0 reqs).filter
        (fun p => subscription_to_identifier p.1 = some s2)).length ≤ 1) :
    (∀ st sub cb, st.ws_ready = false →
      subscribe_with_id st sub cb none =
        ({ st with
            subscription_id_counter := st.subscription_id_counter + 1,
            queued_subscriptions := st.queued_subscriptions ++
              [(sub, ActiveSubscription.mk cb
                (st.subscription_id_counter + 1))],
            allocated_ids := st.allocated_ids ++
              [st.subscription_id_counter + 1] },
          Except.ok (st.subscription_id_counter + 1))) ∧
    (ws_run ws_init
      (reqs.map (fun p => WsOp.subscribeOp p.1 p.2))).sent = [] ∧
    (∀ k, (ws_run ws_init
      (reqs.map (fun p => WsOp.subscribeOp p.1 p.2))).active_subscriptions k
        = []) ∧
    (ws_run ws_init
      (reqs.map (fun p => WsOp.subscribeOp p.1 p.2))).queued_subscriptions =
      queue_after 0 reqs ∧
    (ws_on_open (ws_run ws_init
      (reqs.map (fun p => WsOp.subscribeOp p.1 p.2)))).2 = none ∧
    (ws_on_open (ws_run ws_init
      (reqs.map (fun p => WsOp.subscribeOp p.1 p.2)))).1.sent =
      (queue_after 0 reqs).map (fun p => WireMsg.subscribeMsg p.1) ∧
    (∀ k, (ws_on_open (ws_run ws_init
      (reqs.map (fun p => WsOp.subscribeOp p.1 p.2)))).1.active_subscriptions
        k =
      ((queue_after 0 reqs).filter
        (fun p => subscription_to_identifier p.1 = k)).map (fun p => p.2)) ∧
    (ws_on_open (ws_run ws_init
      (reqs.map
        (fun p => WsOp.subscribeOp p.1 p.2)))).1.queued_subscriptions =
      queue_after 0 reqs := by
  have hrun := ws_run_subscribes_not_ready reqs ws_init rfl
  have hinit : ws_run ws_init
      (reqs.map (fun p => WsOp.subscribeOp p.1 p.2)) =
      { subscription_id_counter := reqs.length
        ws_ready := false
        queued_subscriptions := queue_after 0 reqs
        active_subscriptions := fun _ => []
        sent := []
        allocated_ids :=
          (queue_after 0 reqs).map (fun p => p.2.subscription_id) } := by
    rw [hrun]
    simp [ws_init]
  have hopen : ws_on_open (ws_run ws_init
      (reqs.map (fun p => WsOp.subscribeOp p.1 p.2))) =
      drain_queue
        { subscription_id_counter := reqs.length
          ws_ready := true
          queued_subscriptions := queue_after 0 reqs
          active_subscriptions := fun _ => []
          sent := []
          allocated_ids :=
            (queue_after 0 reqs).map (fun p => p.2.subscription_id) }
        (queue_after 0 reqs) := by
    rw [show ws_on_open (ws_run ws_init
        (reqs.map (fun p => WsOp.subscribeOp p.1 p.2))) =
      drain_queue
        { ws_run ws_init (reqs.map (fun p => WsOp.subscribeOp p.1 p.2)) with
          ws_ready := true }
        (ws_run ws_init
          (reqs.map (fun p => WsOp.subscribeOp p.1 p.2))).queued_subscriptions
      from rfl]
    rw [hinit]
  obtain ⟨d1, d2, d3, d4, d5, d6, d7⟩ := drain_queue_ok (queue_after 0 reqs)
    { subscription_id_counter := reqs.length
      ws_ready := true
      queued_subscriptions := queue_after 0 reqs
      active_subscriptions := fun _ => []
      sent := []
      allocated_ids :=
        (queue_after 0 reqs).map (fun p => p.2.subscription_id) }
    rfl
    (by
      intro s2 hs2
      simpa using hsing s2 hs2)
  refine ⟨fun st sub cb h => subscribe_with_id_not_ready st sub cb h,
    ?_, ?_, ?_, ?_, ?_, ?_, ?_⟩
  · rw [hinit]
  · intro k
    rw [hinit]
  · rw [hinit]
  · rw [hopen]
    exact d1
  · rw [hopen, d2]
    rfl
  · intro k
    rw [hopen, d3 k]
    rfl
  · rw [hopen, d4]

/-- C5 witness: two queued requests (allMids then trades:BTC) flushed on
open: both wire subscribes in FIFO order, drain succeeds, queue retained. -/
theorem queued_subscriptions_flush_witness :
    (ws_on_open (ws_run ws_init
      ([((Subscription.allMids : Subscription), 7), (Subscription.trades "BTC", 8)].map
        (fun p => WsOp.subscribeOp p.1 p.2)))).1.sent =
      [WireMsg.subscribeMsg Subscription.allMids,
       WireMsg.subscribeMsg (Subscription.trades "BTC")] ∧
    (ws_on_open (ws_run ws_init
      ([((Subscription.allMids : Subscription), 7), (Subscription.trades "BTC", 8)].map
        (fun p => WsOp.subscribeOp p.1 p.2)))).2 = none ∧
    (ws_on_open (ws_run ws_init
      ([((Subscription.allMids : Subscription), 7), (Subscription.trades "BTC", 8)].map
        (fun p => WsOp.subscribeOp p.1 p.2)))).1.queued_subscriptions =
      queue_after 0
        [((Subscription.allMids : Subscription), 7), (Subscription.trades "BTC", 8)] := by
  obtain ⟨-, -, -, -, w5, w6, -, w8⟩ := queued_subscriptions_flush
    [((Subscription.allMids : Subscription), 7), (Subscription.trades "BTC", 8)]
    (by
      intro s2 hs2
      rcases hs2 with h | h <;> subst h <;> decide)
  refine ⟨?_, w5, w8⟩
  rw [w6]
  rfl

/-! ## C9: uniqueness and monotonicity of subscription ids -/

/-- The id-hygiene invariant of the manager: ids under any one key are
distinct, queued ids are distinct, every id ever stored is bounded by the
counter, nothing is registered before the first open, and the allocated-id
trace is strictly increasing. -/
def WsInv (st : WsState) : Prop :=
  (∀ k, (idsUnder st k).Nodup) ∧
  (queueIds st).Nodup ∧
  (∀ i ∈ queueIds st, i ≤ st.subscription_id_counter) ∧
  (∀ k, ∀ i ∈ idsUnder st k, i ≤ st.subscription_id_counter) ∧
  (st.ws_ready = false → ∀ k, st.active_subscriptions k = []) ∧
  st.allocated_ids.Pairwise (· < ·) ∧
  (∀ i ∈ st.allocated_ids, i ≤ st.subscription_id_counter)

theorem WsInv_init : WsInv ws_init := by
  refine ⟨?_, ?_, ?_, ?_, ?_, ?_, ?_⟩ <;>
    simp [ws_init, idsUnder, queueIds]

theorem subscribe_core_not_ready_eq (st : WsState) (sub : Subscription)
    (cb sid : Nat) (h : st.ws_ready = false) :
    subscribe_core st sub cb sid =
      ({ st with queued_subscriptions :=
          st.queued_subscriptions ++
            [(sub, ActiveSubscription.mk cb sid)] }, Except.ok sid) := by
  unfold subscribe_core
  rw [if_pos h]

theorem subscribe_core_raise_eq (st : WsState) (sub : Subscription)
    (cb sid : Nat) (hready : st.ws_ready = true)
    (hcond : (subscription_to_identifier sub = some "userEvents" ∨
      subscription_to_identifier sub = some "orderUpdates") ∧
      (st.active_subscriptions (subscription_to_identifier sub)).length ≠ 0) :
    subscribe_core st sub cb sid = (st, Except.error ()) := by
  have hnr : ¬st.ws_ready = false := by rw [hready]; simp
  unfold subscribe_core
  rw [if_neg hnr, if_pos hcond]

theorem ws_unsubscribe_ws_ready (st : WsState) (sub : Subscription)
    (sid : Nat) : (ws_unsubscribe st sub sid).1.ws_ready = st.ws_ready := by
  unfold ws_unsubscribe
  split
  · rfl
  · simp only [regSet]
    split <;> rfl

theorem ws_on_message_state (st : WsState) (m : WsMsg) :
    (ws_on_message st m).1 = st := by
  unfold ws_on_message
  cases ws_msg_to_identifier m with
  | none => rfl
  | some i =>
    by_cases h : i = "pong" <;> simp [h]

/-- subscribe preserves the invariant and the readiness flag. -/
theorem WsInv_subscribe (st : WsState) (sub : Subscription) (cb : Nat)
    (h : WsInv st) :
    WsInv (subscribe_with_id st sub cb none).1 ∧
    (subscribe_with_id st sub cb none).1.ws_ready = st.ws_ready := by
  obtain ⟨h1, h2, h3, h4, h5, h6, h7⟩ := h
  have heq : subscribe_with_id st sub cb none =
      subscribe_core
        { st with
          subscription_id_counter := st.subscription_id_counter + 1,
          allocated_ids := st.allocated_ids ++
            [st.subscription_id_counter + 1] } sub cb
        (st.subscription_id_counter + 1) := rfl
  have halloc : (st.allocated_ids ++
      [st.subscription_id_counter + 1]).Pairwise (· < ·) := by
    rw [List.pairwise_append]
    refine ⟨h6, by simp, ?_⟩
    intro a ha b hb
    simp at hb
    subst hb
    have := h7 a ha
    omega
  have halloc2 : ∀ i ∈ st.allocated_ids ++ [st.subscription_id_counter + 1],
      i ≤ st.subscription_id_counter + 1 := by
    intro i hi
    rcases List.mem_append.mp hi with hh | hh
    · have := h7 i hh
      omega
    · simp at hh
      omega
  by_cases hr : st.ws_ready = false
  · rw [heq, subscribe_core_not_ready_eq { st with
        subscription_id_counter := st.subscription_id_counter + 1,
        allocated_ids := st.allocated_ids ++ [st.subscription_id_counter + 1] }
      sub cb (st.subscription_id_counter + 1) hr]
    refine ⟨⟨h1, ?_, ?_, ?_, fun _ k => h5 hr k, halloc, halloc2⟩, rfl⟩
    · simp only [queueIds, List.map_append]
      rw [List.nodup_append]
      refine ⟨h2, by simp, ?_⟩
      intro a ha hb
      simp at hb
      have := h3 a ha
      omega
    · intro i hi
      simp only [queueIds, List.map_append] at hi
      rcases List.mem_append.mp hi with hh | hh
      · exact Nat.le_succ_of_le (h3 i hh)
      · simp at hh
        exact le_of_eq hh
    · intro k i hi
      exact Nat.le_succ_of_le (h4 k i hi)
  · have hready : st.ws_ready = true := by
      revert hr
      cases st.ws_ready <;> simp
    by_cases hcond : (subscription_to_identifier sub = some "userEvents" ∨
        subscription_to_identifier sub = some "orderUpdates") ∧
        (st.active_subscriptions (subscription_to_identifier sub)).length ≠ 0
    · rw [heq, subscribe_core_raise_eq { st with
        subscription_id_counter := st.subscription_id_counter + 1,
        allocated_ids := st.allocated_ids ++ [st.subscription_id_counter + 1] }
        sub cb (st.subscription_id_counter + 1) hready hcond]
      refine ⟨⟨h1, h2, ?_, ?_, ?_, halloc, halloc2⟩, rfl⟩
      · intro i hi
        exact Nat.le_succ_of_le (h3 i hi)
      · intro k i hi
        exact Nat.le_succ_of_le (h4 k i hi)
      · intro hf
        rw [hready] at hf
        cases hf
    · rw [heq, subscribe_core_ready_no_conflict { st with
        subscription_id_counter := st.subscription_id_counter + 1,
        allocated_ids := st.allocated_ids ++ [st.subscription_id_counter + 1] }
        sub cb (st.subscription_id_counter + 1) hready hcond]
      refine ⟨⟨?_, h2, ?_, ?_, ?_, halloc, halloc2⟩, rfl⟩
      · intro k
        simp only [idsUnder, regSet]
        by_cases hk : k = subscription_to_identifier sub
        · rw [if_pos hk, List.map_append]
          rw [List.nodup_append]
          refine ⟨h1 _, by simp, ?_⟩
          intro a ha hb
          simp at hb
          have := h4 (subscription_to_identifier sub) a ha
          omega
        · rw [if_neg hk]
          exact h1 k
      · intro i hi
        exact Nat.le_succ_of_le (h3 i hi)
      · intro k i hi
        simp only [idsUnder, regSet] at hi
        by_cases hk : k = subscription_to_identifier sub
        · rw [if_pos hk, List.map_append] at hi
          rcases List.mem_append.mp hi with hh | hh
          · exact Nat.le_succ_of_le (h4 _ _ hh)
          · simp at hh
            exact le_of_eq hh
        · rw [if_neg hk] at hi
          exact Nat.le_succ_of_le (h4 k i hi)
      · intro hf
        rw [hready] at hf
        cases hf

/-- unsubscribe preserves the invariant. -/
theorem WsInv_unsubscribe (st : WsState) (sub : Subscription) (sid : Nat)
    (h : WsInv st) : WsInv (ws_unsubscribe st sub sid).1 := by
  obtain ⟨h1, h2, h3, h4, h5, h6, h7⟩ := h
  by_cases hr : st.ws_ready = false
  · have : ws_unsubscribe st sub sid = (st, Except.error ()) := by
      unfold ws_unsubscribe
      rw [if_pos hr]
    rw [this]
    exact ⟨h1, h2, h3, h4, h5, h6, h7⟩
  · obtain ⟨u1, u2, u3, u4, u5⟩ := ws_unsubscribe_ready_proj st sub sid
      (by revert hr; cases st.ws_ready <;> simp)
    have hsub : ∀ k, ∃ l, st.active_subscriptions k = l ∧
        ((ws_unsubscribe st sub sid).1.active_subscriptions k).Sublist l := by
      intro k
      refine ⟨st.active_subscriptions k, rfl, ?_⟩
      rw [u2 k]
      by_cases hk : k = subscription_to_identifier sub
      · rw [if_pos hk, hk]
        exact List.filter_sublist _
      · rw [if_neg hk]
    refine ⟨?_, ?_, ?_, ?_, ?_, ?_, ?_⟩
    · intro k
      obtain ⟨l, hl, hs⟩ := hsub k
      have := (hs.map (fun a => a.subscription_id)).nodup
      apply this
      rw [← hl]
      exact h1 k
    · have hq : (ws_unsubscribe st sub sid).1.queued_subscriptions =
          st.queued_subscriptions := by
        unfold ws_unsubscribe
        split
        · rfl
        · simp only [regSet]
          split <;> rfl
      simpa [queueIds, hq] using h2
    · intro i hi
      have hq : (ws_unsubscribe st sub sid).1.queued_subscriptions =
          st.queued_subscriptions := by
        unfold ws_unsubscribe
        split
        · rfl
        · simp only [regSet]
          split <;> rfl
      rw [queueIds, hq] at hi
      rw [u5]
      exact h3 i hi
    · intro k i hi
      obtain ⟨l, hl, hs⟩ := hsub k
      rw [u5]
      apply h4 k
      rw [idsUnder, hl]
      exact (hs.map (fun a => a.subscription_id)).mem (by
        rw [idsUnder] at hi
        exact hi)
    · intro hf
      rw [ws_unsubscribe_ws_ready] at hf
      exact absurd hf hr
    · have ha : (ws_unsubscribe st sub sid).1.allocated_ids =
          st.allocated_ids := by
        unfold ws_unsubscribe
        split
        · rfl
        · simp only [regSet]
          split <;> rfl
      rw [ha]
      exact h6
    · have ha : (ws_unsubscribe st sub sid).1.allocated_ids =
          st.allocated_ids := by
        unfold ws_unsubscribe
        split
        · rfl
        · simp only [regSet]
          split <;> rfl
      rw [ha, u5]
      exact h7

/-- The drain loop preserves per-key id distinctness when the queued ids are
distinct, bounded by the counter, and disjoint from everything registered. -/
theorem drain_queue_inv (q : List (Subscription × ActiveSubscription)) :
    ∀ st : WsState, st.ws_ready = true →
    (∀ k, (idsUnder st k).Nodup) →
    (∀ k, ∀ i ∈ idsUnder st k, i ≤ st.subscription_id_counter) →
    (q.map (fun p => p.2.subscription_id)).Nodup →
    (∀ i ∈ q.map (fun p => p.2.subscription_id),
      i ≤ st.subscription_id_counter) →
    (∀ k i, i ∈ idsUnder st k → i ∉ q.map (fun p => p.2.subscription_id)) →
    (∀ k, (idsUnder (drain_queue st q).1 k).Nodup) ∧
    (∀ k, ∀ i ∈ idsUnder (drain_queue st q).1 k,
      i ≤ st.subscription_id_counter) ∧
    (drain_queue st q).1.subscription_id_counter =
      st.subscription_id_counter ∧
    (drain_queue st q).1.ws_ready = true ∧
    (drain_queue st q).1.queued_subscriptions = st.queued_subscriptions ∧
    (drain_queue st q).1.allocated_ids = st.allocated_ids := by
  induction q with
  | nil =>
    intro st hready j1 j2 _ _ _
    exact ⟨j1, j2, rfl, hready, rfl, rfl⟩
  | cons hd rest ih =>
    intro st hready j1 j2 j3 j4 j5
    obtain ⟨sub, a⟩ := hd
    by_cases hcond : (subscription_to_identifier sub = some "userEvents" ∨
        subscription_to_identifier sub = some "orderUpdates") ∧
        (st.active_subscriptions
          (subscription_to_identifier sub)).length ≠ 0
    · have hun : drain_queue st ((sub, a) :: rest) = (st, some ()) := by
        show (match subscribe_with_id st sub a.callback
            (some a.subscription_id) with
          | (st1, Except.ok _) => drain_queue st1 rest
          | (st1, Except.error _) => (st1, some ())) = _
        rw [show subscribe_with_id st sub a.callback
          (some a.subscription_id) =
          subscribe_core st sub a.callback a.subscription_id from rfl,
          subscribe_core_raise_eq st sub a.callback a.subscription_id
            hready hcond]
      rw [hun]
      exact ⟨j1, j2, rfl, hready, rfl, rfl⟩
    · have hun : drain_queue st ((sub, a) :: rest) =
          drain_queue
            ({ regSet st (subscription_to_identifier sub)
                (st.active_subscriptions (subscription_to_identifier sub) ++
                  [ActiveSubscription.mk a.callback a.subscription_id]) with
              sent := st.sent ++ [WireMsg.subscribeMsg sub] }) rest := by
        show (match subscribe_with_id st sub a.callback
            (some a.subscription_id) with
          | (st1, Except.ok _) => drain_queue st1 rest
          | (st1, Except.error _) => (st1, some ())) = _
        rw [show subscribe_with_id st sub a.callback
          (some a.subscription_id) =
          subscribe_core st sub a.callback a.subscription_id from rfl,
          subscribe_core_ready_no_conflict st sub a.callback
            a.subscription_id hready hcond]
      have hhead : a.subscription_id ∈
          (((sub, a) :: rest).map (fun p => p.2.subscription_id)) := by
        simp
      have hrestnd : (rest.map (fun p => p.2.subscription_id)).Nodup := by
        rw [List.map_cons] at j3
        exact (List.nodup_cons.mp j3).2
      have hheadrest : a.subscription_id ∉
          rest.map (fun p => p.2.subscription_id) := by
        rw [List.map_cons] at j3
        exact (List.nodup_cons.mp j3).1
      obtain ⟨i1, i2, i3, i4, i5, i6⟩ := ih
        ({ regSet st (subscription_to_identifier sub)
            (st.active_subscriptions (subscription_to_identifier sub) ++
              [ActiveSubscription.mk a.callback a.subscription_id]) with
          sent := st.sent ++ [WireMsg.subscribeMsg sub] })
        hready
        (by
          intro k
          simp only [idsUnder, regSet]
          by_cases hk : k = subscription_to_identifier sub
          · rw [if_pos hk, List.map_append]
            rw [List.nodup_append]
            refine ⟨j1 _, by simp, ?_⟩
            intro x hx hxx
            simp at hxx
            subst hxx
            exact j5 (subscription_to_identifier sub) _ hx hhead
          · rw [if_neg hk]
            exact j1 k)
        (by
          intro k i hi
          simp only [idsUnder, regSet] at hi
          by_cases hk : k = subscription_to_identifier sub
          · rw [if_pos hk, List.map_append] at hi
            rcases List.mem_append.mp hi with hh | hh
            · exact j2 _ _ hh
            · simp at hh
              subst hh
              exact j4 _ hhead
          · rw [if_neg hk] at hi
            exact j2 k i hi)
        hrestnd
        (by
          intro i hi
          exact j4 i (by
            rw [List.map_cons]
            exact List.mem_cons_of_mem _ hi))
        (by
          intro k i hi
          simp only [idsUnder, regSet] at hi
          by_cases hk : k = subscription_to_identifier sub
          · rw [if_pos hk, List.map_append] at hi
            rcases List.mem_append.mp hi with hh | hh
            · intro hmem
              exact j5 _ _ hh (by
                rw [List.map_cons]
                exact List.mem_cons_of_mem _ hmem)
            · simp at hh
              subst hh
              exact hheadrest
          · rw [if_neg hk] at hi
            intro hmem
            exact j5 k i hi (by
              rw [List.map_cons]
              exact List.mem_cons_of_mem _ hmem))
      rw [hun]
      exact ⟨i1, i2, i3, i4, i5, i6⟩

/-- on_open from a pre-ready state preserves the invariant and makes the
session ready. -/
theorem WsInv_open (st : WsState) (h : WsInv st)
    (hnr : st.ws_ready = false) :
    WsInv (ws_on_open st).1 ∧ (ws_on_open st).1.ws_ready = true := by
  obtain ⟨h1, h2, h3, h4, h5, h6, h7⟩ := h
  have hreg := h5 hnr
  have hun : ws_on_open st =
      drain_queue { st with ws_ready := true } st.queued_subscriptions := rfl
  obtain ⟨i1, i2, i3, i4, i5, i6⟩ :=
    drain_queue_inv st.queued_subscriptions { st with ws_ready := true }
      rfl
      (by
        intro k
        simp [idsUnder, hreg k])
      (by
        intro k i hi
        simp [idsUnder, hreg k] at hi)
      h2
      h3
      (by
        intro k i hi
        simp [idsUnder, hreg k] at hi)
  rw [hun]
  refine ⟨⟨i1, ?_, ?_, ?_, ?_, ?_, ?_⟩, i4⟩
  · simpa [queueIds, i5] using h2
  · intro i hi
    rw [queueIds, i5] at hi
    rw [i3]
    exact h3 i hi
  · intro k i hi
    rw [i3]
    exact i2 k i hi
  · intro hf
    rw [i4] at hf
    cases hf
  · rw [i6]
    exact h6
  · intro i hi
    rw [i6] at hi
    rw [i3]
    exact h7 i hi

theorem countOpen_cons (op : WsOp) (rest : List WsOp) :
    countOpen (op :: rest) =
      (if op = WsOp.openOp then 1 else 0) + countOpen rest := by
  unfold countOpen
  by_cases h : op = WsOp.openOp <;>
    simp [List.filter_cons, h, Nat.add_comm]

/-- The invariant holds after any operation sequence containing at most one
on_open event. -/
theorem WsInv_run (ops : List WsOp) :
    ∀ st : WsState, WsInv st →
    (st.ws_ready = true → countOpen ops = 0) →
    countOpen ops ≤ 1 →
    WsInv (ws_run st ops) := by
  induction ops with
  | nil =>
    intro st h _ _
    exact h
  | cons op rest ih =>
    intro st h hready hle
    cases op with
    | subscribeOp sub cb =>
      obtain ⟨hinv, hws⟩ := WsInv_subscribe st sub cb h
      rw [ws_run_cons]
      refine ih _ hinv ?_ ?_
      · intro ht
        rw [show ws_step st (WsOp.subscribeOp sub cb) =
          (subscribe_with_id st sub cb none).1 from rfl] at ht
        rw [hws] at ht
        have := hready ht
        rw [countOpen_cons] at this
        simp at this
        exact this
      · rw [countOpen_cons] at hle
        omega
    | unsubscribeOp sub sid =>
      rw [ws_run_cons]
      refine ih _ (WsInv_unsubscribe st sub sid h) ?_ ?_
      · intro ht
        rw [show ws_step st (WsOp.unsubscribeOp sub sid) =
          (ws_unsubscribe st sub sid).1 from rfl,
          ws_unsubscribe_ws_ready] at ht
        have := hready ht
        rw [countOpen_cons] at this
        simp at this
        exact this
      · rw [countOpen_cons] at hle
        omega
    | messageOp m =>
      rw [ws_run_cons]
      rw [show ws_step st (WsOp.messageOp m) = (ws_on_message st m).1 from
        rfl, ws_on_message_state]
      refine ih _ h ?_ ?_
      · intro ht
        have := hready ht
        rw [countOpen_cons] at this
        simp at this
        exact this
      · rw [countOpen_cons] at hle
        omega
    | openOp =>
      have hcnt : countOpen (WsOp.openOp :: rest) = 1 + countOpen rest := by
        rw [countOpen_cons]
        simp
      have hrest : countOpen rest = 0 := by
        rw [hcnt] at hle
        omega
      have hnr : st.ws_ready = false := by
        by_cases hx : st.ws_ready = true
        · have := hready hx
          rw [hcnt] at this
          omega
        · revert hx
          cases st.ws_ready <;> simp
      obtain ⟨hinv, hws⟩ := WsInv_open st h hnr
      rw [ws_run_cons]
      refine ih _ hinv ?_ ?_
      · intro _
        exact hrest
      · omega

/-- C9 counterexample: the queue is never cleared, so a second on_open
re-registers the queued pair: after [subscribe allMids, open, open] the key
allMids holds two ActiveSubscriptions with the SAME id 1. -/
theorem duplicate_ids_after_double_open :
    idsUnder (ws_run ws_init [WsOp.subscribeOp Subscription.allMids 7,
      WsOp.openOp, WsOp.openOp]) (some "allMids") = [1, 1] ∧
    ¬(idsUnder (ws_run ws_init [WsOp.subscribeOp Subscription.allMids 7,
      WsOp.openOp, WsOp.openOp]) (some "allMids")).Nodup := by
  constructor
  · rfl
  · intro hnd
    have : (1 : Nat) ∉ [1] := by
      have h12 : idsUnder (ws_run ws_init
          [WsOp.subscribeOp Subscription.allMids 7,
          WsOp.openOp, WsOp.openOp]) (some "allMids") = [1, 1] := rfl
      rw [h12] at hnd
      exact (List.nodup_cons.mp hnd).1
    simp at this

/-- C9 (amended): for every operation sequence containing at most one
on_open event (the source does not clear the queue on drain, so a repeated
on_open would re-register queued pairs), in the reached state no two
ActiveSubscriptions under the same canonical key share an id, and the ids
handed out by subscribe form a strictly increasing, never-reused sequence. -/
theorem subscription_ids_unique (ops : List WsOp)
    (h : countOpen ops ≤ 1) :
    (∀ k, (idsUnder (ws_run ws_init ops) k).Nodup) ∧
    (ws_run ws_init ops).allocated_ids.Pairwise (· < ·) := by
  have hinv := WsInv_run ops ws_init WsInv_init
    (by
      intro hc
      simp [ws_init] at hc)
    h
  exact ⟨hinv.1, hinv.2.2.2.2.2.1⟩

/-- C9 witness: subscribe before open, open once, subscribe again: ids under
allMids are duplicate-free and the allocated ids 1, 2 strictly increase. -/
theorem subscription_ids_unique_witness :
    countOpen [WsOp.subscribeOp Subscription.allMids 5, WsOp.openOp,
      WsOp.subscribeOp (Subscription.trades "BTC") 6] ≤ 1 ∧
    (idsUnder (ws_run ws_init [WsOp.subscribeOp Subscription.allMids 5,
      WsOp.openOp, WsOp.subscribeOp (Subscription.trades "BTC") 6])
      (some "allMids")).Nodup ∧
    (ws_run ws_init [WsOp.subscribeOp Subscription.allMids 5, WsOp.openOp,
      WsOp.subscribeOp
        (Subscription.trades "BTC") 6]).allocated_ids.Pairwise (· < ·) :=
  ⟨by decide,
    (subscription_ids_unique [WsOp.subscribeOp Subscription.allMids 5,
      WsOp.openOp, WsOp.subscribeOp (Subscription.trades "BTC") 6]
      (by decide)).1 (some "allMids"),
    (subscription_ids_unique [WsOp.subscribeOp Subscription.allMids 5,
      WsOp.openOp, WsOp.subscribeOp (Subscription.trades "BTC") 6]
      (by decide)).2⟩

/-! ## C2: pong timeout and the lifecycle -/

/-- C2 counterexample: from a live session that was never told to close, a
pong timeout makes the health checker record a WebSocketTimeoutError and run
the full shutdown; the resulting state is absorbing under every further
lifecycle event (no reconnect attempt exists in the source), so Disconnected
is terminal here although the caller never invoked stop(). -/
theorem pong_timeout_no_reconnect :
    (session_step session_init SessionEvent.pongTimeout).stop_event = true ∧
    (session_step session_init SessionEvent.pongTimeout).running = false ∧
    (session_step session_init
      SessionEvent.pongTimeout).socket_connected = false ∧
    (session_step session_init SessionEvent.pongTimeout).connection_error =
      some ConnErr.timeout ∧
    session_step (session_step session_init SessionEvent.pongTimeout)
      SessionEvent.pongTimeout =
      session_step session_init SessionEvent.pongTimeout ∧
    session_step (session_step session_init SessionEvent.pongTimeout)
      SessionEvent.socketLost =
      session_step session_init SessionEvent.pongTimeout ∧
    session_step (session_step session_init SessionEvent.pongTimeout)
      SessionEvent.callerStop =
      session_step session_init SessionEvent.pongTimeout := by
  decide

/-- C2 (amended): in every session state whose stop event is not yet set, a
pong not received within the timeout causes exactly one transition: the
health checker stores WebSocketTimeoutError in _connection_error and calls
stop(), which clears the run flags and closes the socket; the stopped state
is absorbing — the session never re-enters a connecting state, and recovery
requires the caller to build a new manager. -/
theorem pong_timeout_stops_session (s : SessionState)
    (h : s.stop_event = false) :
    (session_step s SessionEvent.pongTimeout).connection_error =
      some ConnErr.timeout ∧
    (session_step s SessionEvent.pongTimeout).running = false ∧
    (session_step s SessionEvent.pongTimeout).stop_event = true ∧
    (session_step s SessionEvent.pongTimeout).keep_running = false ∧
    (session_step s SessionEvent.pongTimeout).socket_connected = false ∧
    ∀ e, session_step (session_step s SessionEvent.pongTimeout) e =
      session_step s SessionEvent.pongTimeout := by
  have hnot : ¬s.stop_event = true := by
    rw [h]
    simp
  have hstep : session_step s SessionEvent.pongTimeout =
      session_stop { s with connection_error := some ConnErr.timeout } := by
    unfold session_step
    rw [if_neg hnot]
  rw [hstep]
  refine ⟨rfl, rfl, rfl, rfl, rfl, ?_⟩
  intro e
  have habs : (session_stop
      { s with connection_error := some ConnErr.timeout }).stop_event =
      true := rfl
  unfold session_step
  rw [if_pos habs]

/-- C2 witness: the amended behaviour at the live initial session state. -/
theorem pong_timeout_stops_session_witness :
    (session_step session_init SessionEvent.pongTimeout).connection_error =
      some ConnErr.timeout ∧
    (session_step session_init SessionEvent.pongTimeout).running = false ∧
    session_step (session_step session_init SessionEvent.pongTimeout)
      SessionEvent.socketLost =
      session_step session_init SessionEvent.pongTimeout :=
  ⟨(pong_timeout_stops_session session_init rfl).1,
    (pong_timeout_stops_session session_init rfl).2.1,
    (pong_timeout_stops_session session_init rfl).2.2.2.2.2
      SessionEvent.socketLost⟩

end HL
